import Mathlib

/-!
Verification development for the Lumen UI-language compiler (src/lumen.js).

The JavaScript pipeline (tokenizer, recursive-descent parser, two-pass
compiler producing a CSS string and an HTML string) is shallowly embedded
below.  JavaScript strings are Lean `String`s, JS objects used as ordered
string-keyed maps (`Object.assign` / `Object.entries` semantics for
non-integer keys) are insertion-ordered association lists, the process-wide
identifier counter `_idCounter` is threaded explicitly as a `Nat`, and the
exception thrown by the parser (`LumenError`) becomes `Except`.  Resolution
of named material references can diverge in JS on cyclic references, so the
mutually recursive resolver takes a fuel argument and returns `Option`
(`none` models the crash/divergence, never a normal result).
-/

-- ============================================================
-- Generic JS-behaviour helpers
-- ============================================================

/-- Whitespace characters relevant inside a Lumen source line (the tokenizer
never lets `\n`/`\r` reach a trim).  Models the whitespace class used by
JS `trim`/`trimRight` restricted to characters that can occur here. -/
def jsWs (c : Char) : Bool := c = ' ' || c = '\t' || c = '\x0b' || c = '\x0c'

/-- Space or tab, the exact set skipped by the tokenizer before a value. -/
def jsSpaceTab (c : Char) : Bool := c = ' ' || c = '\t'

/-- Model of `String.prototype.trimRight` on a character list. -/
def jsTrimRightChars (l : List Char) : List Char := (l.reverse.dropWhile jsWs).reverse

/-- Model of `String.prototype.trim` on a character list. -/
def jsTrimChars (l : List Char) : List Char := ((l.dropWhile jsWs).reverse.dropWhile jsWs).reverse

/-- Model of `String.prototype.trim`. -/
def jsTrim (s : String) : String := ⟨jsTrimChars s.toList⟩

/-- Model of `Array.prototype.join(sep)`. -/
def jsJoin (sep : String) : List String → String
  | [] => ""
  | [a] => a
  | a :: b :: rest => a ++ sep ++ jsJoin sep (b :: rest)

/-- Model of the JS idiom `s || d` for strings (empty string is falsy). -/
def jsOr (s d : String) : String := if s = "" then d else s

/-- Replace the first occurrence of character `c` in `s` by `r`
(model of `String.prototype.replace` with a one-character string pattern). -/
def jsReplaceFirstChar (s : String) (c : Char) (r : String) : String :=
  ⟨go s.toList⟩
where
  go : List Char → List Char
    | [] => []
    | x :: rest => if x = c then r.toList ++ rest else x :: go rest

/-- Replace every occurrence of character `c` in `s` by `r` (model of a
global-regex `String.prototype.replace` with a one-character pattern). -/
def jsReplaceAllChar (s : String) (c : Char) (r : String) : String :=
  ⟨s.toList.flatMap fun x => if x = c then r.toList else [x]⟩

/-- Model of `s.slice(a, b)` for `0 ≤ a ≤ b`. -/
def jsSlice (s : String) (a b : Nat) : String := ⟨(s.toList.drop a).take (b - a)⟩

/-- An insertion-ordered string-keyed object, as produced by JS object
literals and `Object.assign`: assigning to a present key updates the value
in place, assigning to an absent key appends it. -/
abbrev CssObj := List (String × String)

/-- One assignment step of `Object.assign`: update in place or append. -/
def jsAssign1 (obj : CssObj) (k v : String) : CssObj :=
  if k ∈ obj.map Prod.fst then
    obj.map fun kv => if kv.1 = k then (k, v) else kv
  else obj ++ [(k, v)]

/-- Model of `Object.assign(obj, src)` (left-biased key positions,
right-biased values). -/
def jsAssign (obj src : CssObj) : CssObj := src.foldl (fun o kv => jsAssign1 o kv.1 kv.2) obj

/-- Insert-or-overwrite into a string-keyed map (`map[name] = node`). -/
def jsUpsert (m : List (String × List (String × String))) (k : String)
    (v : List (String × String)) : List (String × List (String × String)) :=
  if k ∈ m.map Prod.fst then
    m.map fun kv => if kv.1 = k then (k, v) else kv
  else m ++ [(k, v)]

-- ============================================================
-- SECTION 1: TOKENIZER (tokenize, src/lumen.js lines 79-175)
-- ============================================================

/-- Token types of the Lumen tokenizer (the `TT` table). -/
inductive TokType where
  | KEYWORD | IDENT | STRING | COLON | LBRACE | RBRACE | VALUE | NEWLINE | EOF
deriving DecidableEq, Repr

/-- The name of a token type, as used in parse-error messages. -/
def TokType.str : TokType → String
  | .KEYWORD => "KEYWORD"
  | .IDENT => "IDENT"
  | .STRING => "STRING"
  | .COLON => "COLON"
  | .LBRACE => "LBRACE"
  | .RBRACE => "RBRACE"
  | .VALUE => "VALUE"
  | .NEWLINE => "NEWLINE"
  | .EOF => "EOF"

/-- A token.  Tokens without a `value` field in JS carry `""` here
(JS reads `tok.value` as `undefined`, which is falsy exactly like `""`
in the one place it is inspected, the parse-error message). -/
structure Token where
  type : TokType
  value : String := ""
deriving DecidableEq, Repr

/-- Leading character of an identifier: `/[a-zA-Z_]/`. -/
def isIdentStart (c : Char) : Bool := c.isAlpha || c = '_'

/-- Continuation character of an identifier: `/[a-zA-Z0-9_-]/`. -/
def isIdentChar (c : Char) : Bool := c.isAlpha || c.isDigit || c = '_' || c = '-'

/-- The reserved words (`KEYWORDS` table). -/
def isKeyword (w : String) : Bool := w = "surface" || w = "material" || w = "text"

/-- Read the rest of a line as a raw value: stop at a line break or at the
start of a `//` comment; returns (value characters, rest). -/
def readVal : List Char → List Char × List Char
  | [] => ([], [])
  | c :: rest =>
    if c = '\n' ∨ c = '\r' then ([], c :: rest)
    else if c = '/' ∧ rest.head? = some '/' then ([], c :: rest)
    else
      let (v, r) := readVal rest
      (c :: v, r)

/-- Skip a `/* ... */` block comment body: drop everything up to and
including the first `*/` (or everything, if unterminated). -/
def skipBlock : List Char → List Char
  | [] => []
  | '*' :: '/' :: r => r
  | _ :: r => skipBlock r

/-- The tokenizer loop.  `afterColon` is the value-capture flag.  The JS
loop always advances, so it terminates on every input; here an explicit
fuel decreases at every step and `tokenize` supplies more fuel than the
number of steps any input can take, making the fuel-exhaustion branch dead
code for the entry point (a step consumes a character except immediately
after a colon, and colons are themselves consumed characters). -/
def tokenizeAux (fuel : Nat) (cs : List Char) (afterColon : Bool) : List Token :=
  match fuel with
  | 0 => [⟨.EOF, ""⟩]
  | fuel + 1 =>
    match cs with
    | [] => [⟨.EOF, ""⟩]
    | c :: rest =>
      if c = '\n' ∨ c = '\r' then
        ⟨.NEWLINE, ""⟩ :: tokenizeAux fuel rest false
      else if afterColon then
        let cs1 := cs.dropWhile jsSpaceTab
        let vr := readVal cs1
        let val := jsTrimRightChars vr.1
        if val = [] then tokenizeAux fuel vr.2 false
        else ⟨.VALUE, ⟨val⟩⟩ :: tokenizeAux fuel vr.2 false
      else if jsSpaceTab c then tokenizeAux fuel rest false
      else if c = '/' ∧ rest.head? = some '/' then
        tokenizeAux fuel (cs.dropWhile (fun x => x ≠ '\n')) false
      else if c = '/' ∧ rest.head? = some '*' then
        tokenizeAux fuel (skipBlock rest.tail) false
      else if c = '{' then ⟨.LBRACE, ""⟩ :: tokenizeAux fuel rest false
      else if c = '}' then ⟨.RBRACE, ""⟩ :: tokenizeAux fuel rest false
      else if c = ':' then ⟨.COLON, ""⟩ :: tokenizeAux fuel rest true
      else if c = '"' then
        ⟨.STRING, ⟨rest.takeWhile (fun x => x ≠ '"')⟩⟩ ::
          tokenizeAux fuel (rest.dropWhile (fun x => x ≠ '"')).tail false
      else if isIdentStart c then
        let word : String := ⟨cs.takeWhile isIdentChar⟩
        (if isKeyword word then (⟨.KEYWORD, word⟩ : Token) else ⟨.IDENT, word⟩) ::
          tokenizeAux fuel (cs.dropWhile isIdentChar) false
      else tokenizeAux fuel rest false

/-- `tokenize(src)` (src/lumen.js line 79): tokens of a source string,
terminated by an `EOF` token. -/
def tokenize (src : String) : List Token :=
  tokenizeAux (2 * src.toList.length + 2) src.toList false

-- ============================================================
-- SECTION 2: PARSER (parse, src/lumen.js lines 200-359)
-- ============================================================

/-- An exception escaping the parser: either the structured `LumenError`
thrown by `expect` (constructor `lumenError`, carrying the message), or the
native `TypeError` raised when `peek()` reads `tokens[pos]` past the end of
the token list and the code touches `.type` on `undefined`. -/
inductive JsError where
  | lumenError (message : String)
  | typeError
deriving DecidableEq, Repr

/-- AST nodes that can occur inside a surface body.  `parseSurface`
produces `surface`, `parseText` produces `text`. -/
inductive LNode where
  | surface (name : String) (props : List (String × String)) (children : List LNode)
  | text (content : String) (props : List (String × String))

/-- Top-level statements: `parseStatement` pushes Surface and Material
nodes into the program body. -/
inductive TopStmt where
  | surf (node : LNode)
  | mat (name : String) (props : List (String × String))

/-- Model of `peek()` on a nonempty token list.  On token lists produced by
`tokenize` the suffix keeps its final EOF token at every `peek` site except
the body-loop heads, where the skip branch can consume the EOF token; those
loop heads therefore test for the empty list explicitly below and raise the
`TypeError` that JS raises there, so the out-of-bounds default of this
function stands for no reachable JS behavior. -/
def peekT (l : List Token) : Token := l.headD ⟨.EOF, ""⟩

/-- Model of `skipNewlines()`. -/
def skipNewlines (l : List Token) : List Token :=
  l.dropWhile fun t => t.type == TokType.NEWLINE

/-- The message built by `expect` on a mismatch (src/lumen.js lines 206-215).
A token whose value is empty prints no parenthesized value, matching the JS
falsiness test on `tok.value`. -/
def expectMsg (ty : TokType) (tok : Token) : String :=
  "Parse Error: Expected " ++ ty.str ++ " but got " ++ tok.type.str ++
    (if tok.value = "" then "" else " (\"" ++ tok.value ++ "\")")

/-- Model of `expect(type)`: advance one token; error if its type differs. -/
def expect (ty : TokType) (l : List Token) : Except JsError (Token × List Token) :=
  let tok := peekT l
  if tok.type = ty then .ok (tok, l.tail) else .error (.lumenError (expectMsg ty tok))

/-- Model of `parseProperty()` (src/lumen.js lines 341-356): consume the
IDENT, skip line breaks, and if no colon follows return `none` (the line is
discarded); otherwise consume the colon and take a VALUE or STRING token as
the value (or the empty string when neither follows). -/
def parseProperty (l : List Token) : Option (String × String) × List Token :=
  let key := (peekT l).value
  let l1 := skipNewlines l.tail
  if (peekT l1).type = TokType.COLON then
    let l2 := l1.tail
    if (peekT l2).type = TokType.VALUE then
      (some (key, jsTrim (peekT l2).value), l2.tail)
    else if (peekT l2).type = TokType.STRING then
      (some (key, jsTrim ("\"" ++ (peekT l2).value ++ "\"")), l2.tail)
    else
      (some (key, jsTrim ""), l2)
  else (none, l1)

-- Parser functions, mutually recursive over an explicit fuel that strictly
-- decreases at every call.  `parse` supplies fuel exceeding the total number
-- of calls any token list can cause, so the fuel-exhaustion branch (an error
-- no JS execution produces, since the JS loops always advance) is dead code
-- for the entry point.
mutual

/-- The `parseProgram` loop (src/lumen.js lines 223-232), after its leading
`skipNewlines`: parse statements until EOF. -/
def parseProgramLoop (fuel : Nat) (l : List Token) : Except JsError (List TopStmt) :=
  match fuel with
  | 0 => .error (.lumenError "Internal Error: parser fuel exhausted")
  | f + 1 =>
    if l = [] then .error .typeError
    else if (peekT l).type = TokType.EOF then .ok []
    else
      match parseStatement f l with
      | .error e => .error e
      | .ok (os, l1) =>
        match parseProgramLoop f (skipNewlines l1) with
        | .error e => .error e
        | .ok body => .ok ((match os with | some s => [s] | none => []) ++ body)

/-- Model of `parseStatement()` (src/lumen.js lines 235-243). -/
def parseStatement (fuel : Nat) (l : List Token) :
    Except JsError (Option TopStmt × List Token) :=
  match fuel with
  | 0 => .error (.lumenError "Internal Error: parser fuel exhausted")
  | f + 1 =>
    let tok := peekT l
    if tok.type = TokType.KEYWORD ∧ tok.value = "surface" then
      match parseSurface f l with
      | .error e => .error e
      | .ok (node, l1) => .ok (some (.surf node), l1)
    else if tok.type = TokType.KEYWORD ∧ tok.value = "material" then
      match parseMaterial f l with
      | .error e => .error e
      | .ok (nm, props, l1) => .ok (some (.mat nm props), l1)
    else .ok (none, l.tail)

/-- Model of `parseSurface()` (src/lumen.js lines 246-286). -/
def parseSurface (fuel : Nat) (l : List Token) : Except JsError (LNode × List Token) :=
  match fuel with
  | 0 => .error (.lumenError "Internal Error: parser fuel exhausted")
  | f + 1 =>
    match expect TokType.KEYWORD l with
    | .error e => .error e
    | .ok (_, l1) =>
      match expect TokType.IDENT l1 with
      | .error e => .error e
      | .ok (nameTok, l2) =>
        match expect TokType.LBRACE (skipNewlines l2) with
        | .error e => .error e
        | .ok (_, l3) =>
          match parseSurfaceBody f (skipNewlines l3) with
          | .error e => .error e
          | .ok (props, children, l4) =>
            match expect TokType.RBRACE l4 with
            | .error e => .error e
            | .ok (_, l5) => .ok (.surface nameTok.value props children, l5)

/-- The body loop of `parseSurface` (src/lumen.js lines 256-282).  When the
token after the iteration's `skipNewlines` is EOF, none of the branches
matches and the skip branch consumes the EOF token; the loop condition's
next `peek()` then reads past the end and throws a TypeError. -/
def parseSurfaceBody (fuel : Nat) (l : List Token) :
    Except JsError (List (String × String) × List LNode × List Token) :=
  match fuel with
  | 0 => .error (.lumenError "Internal Error: parser fuel exhausted")
  | f + 1 =>
    if l = [] then .error .typeError
    else if (peekT l).type = TokType.RBRACE ∨ (peekT l).type = TokType.EOF then
      .ok ([], [], l)
    else
      let l1 := skipNewlines l
      if (peekT l1).type = TokType.RBRACE then .ok ([], [], l1)
      else
        let cur := peekT l1
        if cur.type = TokType.KEYWORD ∧ cur.value = "surface" then
          match parseSurface f l1 with
          | .error e => .error e
          | .ok (child, l2) =>
            match parseSurfaceBody f (skipNewlines l2) with
            | .error e => .error e
            | .ok (props, children, l3) => .ok (props, child :: children, l3)
        else if cur.type = TokType.KEYWORD ∧ cur.value = "text" then
          match parseText f l1 with
          | .error e => .error e
          | .ok (child, l2) =>
            match parseSurfaceBody f (skipNewlines l2) with
            | .error e => .error e
            | .ok (props, children, l3) => .ok (props, child :: children, l3)
        else if cur.type = TokType.IDENT then
          let pr := parseProperty l1
          match parseSurfaceBody f (skipNewlines pr.2) with
          | .error e => .error e
          | .ok (props, children, l3) =>
            .ok ((match pr.1 with | some p => p :: props | none => props), children, l3)
        else parseSurfaceBody f l1.tail

/-- Model of `parseMaterial()` (src/lumen.js lines 289-311). -/
def parseMaterial (fuel : Nat) (l : List Token) :
    Except JsError (String × List (String × String) × List Token) :=
  match fuel with
  | 0 => .error (.lumenError "Internal Error: parser fuel exhausted")
  | f + 1 =>
    match expect TokType.KEYWORD l with
    | .error e => .error e
    | .ok (_, l1) =>
      match expect TokType.IDENT l1 with
      | .error e => .error e
      | .ok (nameTok, l2) =>
        match expect TokType.LBRACE (skipNewlines l2) with
        | .error e => .error e
        | .ok (_, l3) =>
          match parseMaterialBody f (skipNewlines l3) with
          | .error e => .error e
          | .ok (props, l4) =>
            match expect TokType.RBRACE l4 with
            | .error e => .error e
            | .ok (_, l5) => .ok (nameTok.value, props, l5)

/-- The body loop of `parseMaterial` (src/lumen.js lines 297-307), with the
same past-the-end TypeError as the surface body loop when its skip branch
consumes the EOF token. -/
def parseMaterialBody (fuel : Nat) (l : List Token) :
    Except JsError (List (String × String) × List Token) :=
  match fuel with
  | 0 => .error (.lumenError "Internal Error: parser fuel exhausted")
  | f + 1 =>
    if l = [] then .error .typeError
    else if (peekT l).type = TokType.RBRACE ∨ (peekT l).type = TokType.EOF then
      .ok ([], l)
    else
      let l1 := skipNewlines l
      if (peekT l1).type = TokType.RBRACE then .ok ([], l1)
      else if (peekT l1).type = TokType.IDENT then
        let pr := parseProperty l1
        match parseMaterialBody f (skipNewlines pr.2) with
        | .error e => .error e
        | .ok (props, l3) =>
          .ok ((match pr.1 with | some p => p :: props | none => props), l3)
      else parseMaterialBody f (skipNewlines l1.tail)

/-- Model of `parseText()` (src/lumen.js lines 314-338). -/
def parseText (fuel : Nat) (l : List Token) : Except JsError (LNode × List Token) :=
  match fuel with
  | 0 => .error (.lumenError "Internal Error: parser fuel exhausted")
  | f + 1 =>
    match expect TokType.KEYWORD l with
    | .error e => .error e
    | .ok (_, l1) =>
      match expect TokType.STRING l1 with
      | .error e => .error e
      | .ok (contentTok, l2) =>
        let l3 := skipNewlines l2
        if (peekT l3).type = TokType.LBRACE then
          match parseTextBody f (skipNewlines l3.tail) with
          | .error e => .error e
          | .ok (props, l4) =>
            match expect TokType.RBRACE l4 with
            | .error e => .error e
            | .ok (_, l5) => .ok (.text contentTok.value props, l5)
        else .ok (.text contentTok.value [], l3)

/-- The optional body loop of `parseText` (src/lumen.js lines 323-333), with
the same past-the-end TypeError as the surface body loop when its skip
branch consumes the EOF token. -/
def parseTextBody (fuel : Nat) (l : List Token) :
    Except JsError (List (String × String) × List Token) :=
  match fuel with
  | 0 => .error (.lumenError "Internal Error: parser fuel exhausted")
  | f + 1 =>
    if l = [] then .error .typeError
    else if (peekT l).type = TokType.RBRACE ∨ (peekT l).type = TokType.EOF then
      .ok ([], l)
    else
      let l1 := skipNewlines l
      if (peekT l1).type = TokType.RBRACE then .ok ([], l1)
      else if (peekT l1).type = TokType.IDENT then
        let pr := parseProperty l1
        match parseTextBody f (skipNewlines pr.2) with
        | .error e => .error e
        | .ok (props, l3) =>
          .ok ((match pr.1 with | some p => p :: props | none => props), l3)
      else parseTextBody f (skipNewlines l1.tail)

end

/-- Fuel that strictly dominates the number of parser calls for a token
list (each call consumes fuel exactly once and each loop iteration consumes
at least one token). -/
def parseFuel (tokens : List Token) : Nat := 8 * tokens.length + 16

/-- Model of `parse(tokens)` (src/lumen.js line 200/358): the leading
`skipNewlines()` of `parseProgram` followed by its statement loop. -/
def parse (tokens : List Token) : Except JsError (List TopStmt) :=
  parseProgramLoop (parseFuel tokens) (skipNewlines tokens)

-- ============================================================
-- SECTION 3: COMPILER (src/lumen.js lines 362-720)
-- ============================================================

/-- The material lookup table built by pass 1 of `compile`: an ordered
string-keyed JS object mapping material names to their property lists. -/
abbrev MatMap := List (String × List (String × String))

/-- Hex digit for `parseInt(.., 16)`: 0-9, a-f, A-F. -/
def isHexDig (c : Char) : Bool :=
  (('0' ≤ c) && (c ≤ '9')) || (('a' ≤ c) && (c ≤ 'f')) || (('A' ≤ c) && (c ≤ 'F'))

/-- Numeric value of a hex digit (0 for non-digits, never consulted there). -/
def hexDigVal (c : Char) : Nat :=
  if ('0' ≤ c) && (c ≤ '9') then c.toNat - 48
  else if ('a' ≤ c) && (c ≤ 'f') then c.toNat - 87
  else if ('A' ≤ c) && (c ≤ 'F') then c.toNat - 55
  else 0

/-- Model of `parseInt(s, 16)`: skip leading whitespace, optional sign,
optional `0x`/`0X` prefix, then the longest prefix of hex digits; `none`
models `NaN` (no digits at all). -/
def jsParseIntHex (s : String) : Option Int :=
  let cs := s.toList.dropWhile jsWs
  let sign := if cs.head? = some '-' then true else false
  let cs1 := if cs.head? = some '-' ∨ cs.head? = some '+' then cs.tail else cs
  let cs2 :=
    if cs1.head? = some '0' ∧ (cs1.tail.head? = some 'x' ∨ cs1.tail.head? = some 'X')
    then cs1.tail.tail else cs1
  let ds := cs2.takeWhile isHexDig
  if ds = [] then none
  else
    let n : Nat := ds.foldl (fun a c => a * 16 + hexDigVal c) 0
    some (if sign then -(n : Int) else (n : Int))

/-- Print an optional number the way JS string concatenation prints the
result of `parseInt`: `NaN` for `none`. -/
def numStr : Option Int → String
  | none => "NaN"
  | some i => toString i

/-- Strip trailing decimal zeros from `m`, returning the stripped number
and how many zeros were removed; `fuel` bounds the number of digits. -/
def stripTrailZeros (fuel m : Nat) : Nat × Nat :=
  match fuel with
  | 0 => (m, 0)
  | f + 1 =>
    if m ≠ 0 ∧ m % 10 = 0 then
      let r := stripTrailZeros f (m / 10)
      (r.1, r.2 + 1)
    else (m, 0)

/-- Decimal model of JS `String(parseFloat(s))`: parse an optional sign,
integer digits, an optional fraction and an optional exponent exactly as
`parseFloat` does, then print the value in plain decimal form with no
trailing fractional zeros.  Exact decimal arithmetic stands in for the
double round-trip; on numbers of moderate magnitude with at most 15
significant digits (every opacity argument in practice) the JS round-trip
prints exactly this canonical decimal. -/
def jsNumberString (s : String) : String :=
  let cs := s.toList.dropWhile jsWs
  let neg := cs.head? = some '-'
  let cs1 := if cs.head? = some '-' ∨ cs.head? = some '+' then cs.tail else cs
  if List.isPrefixOf "Infinity".toList cs1 then
    (if neg then "-Infinity" else "Infinity")
  else
    let intD := cs1.takeWhile Char.isDigit
    let r1 := cs1.dropWhile Char.isDigit
    let fracD := if r1.head? = some '.' then r1.tail.takeWhile Char.isDigit else []
    let r2 := if r1.head? = some '.' then (r1.tail.dropWhile Char.isDigit) else r1
    if intD = [] ∧ fracD = [] then "NaN"
    else
      let expD :=
        if r2.head? = some 'e' ∨ r2.head? = some 'E' then
          (if r2.tail.head? = some '-' ∨ r2.tail.head? = some '+'
           then r2.tail.tail.takeWhile Char.isDigit
           else r2.tail.takeWhile Char.isDigit)
        else []
      let expNeg := r2.tail.head? = some '-'
      let expVal : Int :=
        if expD = [] then 0
        else
          let e : Nat := expD.foldl (fun a c => a * 10 + (c.toNat - 48)) 0
          if expNeg then -(e : Int) else (e : Int)
      let m : Nat := (intD ++ fracD).foldl (fun a c => a * 10 + (c.toNat - 48)) 0
      if m = 0 then "0"
      else
        let st := stripTrailZeros (intD ++ fracD).length m
        let m1 := st.1
        let e : Int := expVal - (fracD.length : Int) + (st.2 : Int)
        let sgn := if neg then "-" else ""
        if 0 ≤ e then
          sgn ++ toString m1 ++ String.mk (List.replicate e.toNat '0')
        else
          let k := (-e).toNat
          let digits := Nat.toDigits 10 m1
          if k < digits.length then
            sgn ++ String.mk (digits.take (digits.length - k)) ++ "." ++
              String.mk (digits.drop (digits.length - k))
          else
            sgn ++ "0." ++ String.mk (List.replicate (k - digits.length) '0') ++
              String.mk digits

/-- Split a function-argument string on top-level commas (depth counted
over parentheses, as an integer exactly like the JS loop variable), each
piece trimmed; a comma pushes its piece even when empty, the final piece
only when nonempty (src/lumen.js lines 388-404). -/
def splitArgsAux : List Char → Int → List Char → List String → List String
  | [], _, current, acc =>
    if jsTrimChars current = [] then acc else acc ++ [⟨jsTrimChars current⟩]
  | c :: rest, depth, current, acc =>
    if c = '(' then splitArgsAux rest (depth + 1) (current ++ [c]) acc
    else if c = ')' then splitArgsAux rest (depth - 1) (current ++ [c]) acc
    else if c = ',' ∧ depth = 0 then splitArgsAux rest depth [] (acc ++ [⟨jsTrimChars current⟩])
    else splitArgsAux rest depth (current ++ [c]) acc

/-- Model of `parseFn(value)` (src/lumen.js lines 385-405): the regex
`^([\w-]+)\((.+)\)$` names a leading run of word characters, requires an
opening parenthesis right after it, a closing parenthesis as the final
character and a nonempty body; the body is split on top-level commas. -/
def parseFn (value : String) : Option (String × List String) :=
  let cs := value.toList
  let name := cs.takeWhile isIdentChar
  match cs.dropWhile isIdentChar with
  | '(' :: rest =>
    if name ≠ [] ∧ rest.getLast? = some ')' ∧ 2 ≤ rest.length then
      some (⟨name⟩, splitArgsAux rest.dropLast 0 [] [])
    else none
  | _ => none

/-- Model of `hexToRgba(hex, alpha)` (src/lumen.js lines 408-415).  The
`alpha` argument is a JS number; its occurrence in the produced string is
the number's printed form, which the caller passes here as `alphaStr`. -/
def hexToRgba (hex : String) (alphaStr : String) : String :=
  let h1 := jsReplaceFirstChar hex '#' ""
  let h2 := if h1.toList.length = 3 then ⟨h1.toList.flatMap fun c => [c, c]⟩ else h1
  "rgba(" ++ numStr (jsParseIntHex (jsSlice h2 0 2)) ++ ", " ++
    numStr (jsParseIntHex (jsSlice h2 2 4)) ++ ", " ++
    numStr (jsParseIntHex (jsSlice h2 4 6)) ++ ", " ++ alphaStr ++ ")"

/-- Model of `resolveMaterialValue(value)` (src/lumen.js lines 430-483). -/
def resolveMaterialValue (value : String) : CssObj :=
  match parseFn value with
  | none => [("background", value)]
  | some (fname, args) =>
    if fname = "solid" then [("background", args.headD "undefined")]
    else if fname = "gradient" then
      let direction := if args.length = 2 then "135deg" else args.headD "undefined"
      let colors := if args.length = 2 then args else args.drop 1
      [("background", "linear-gradient(" ++ direction ++ ", " ++ jsJoin ", " colors ++ ")")]
    else if fname = "radial" then
      [("background", "radial-gradient(circle, " ++ jsJoin ", " args ++ ")")]
    else if fname = "glass" then
      let gColor := jsOr (args.headD "") "#ffffff"
      let gOpacityStr := jsNumberString (jsOr ((args.drop 1).headD "") "0.1")
      let bgColor := if gColor.toList.head? = some '#' then hexToRgba gColor gOpacityStr
                     else gColor
      [("background", bgColor),
       ("backdrop-filter", "blur(12px)"),
       ("-webkit-backdrop-filter", "blur(12px)")]
    else if fname = "noise" then
      let nColor := jsOr (args.headD "") "#1a1a2e"
      [("background", nColor),
       ("background-image", "url(\"data:image/svg+xml,%3Csvg viewBox=\x270 0 200 200\x27 xmlns=\x27http://www.w3.org/2000/svg\x27%3E%3Cfilter id=\x27n\x27%3E%3CfeTurbulence type=\x27fractalNoise\x27 baseFrequency=\x270.65\x27 numOctaves=\x273\x27 stitchTiles=\x27stitch\x27/%3E%3C/filter%3E%3Crect width=\x27100%25\x27 height=\x27100%25\x27 filter=\x27url(%23n)\x27 opacity=\x270.04\x27/%3E%3C/svg%3E\")")]
    else [("background", value)]

/-- The `forEach` fold inside `resolveMaterialNode` (src/lumen.js lines
578-588), abstracted over the resolver applied to non-`color` keys: fold
the properties into `css` with `Object.assign`, `color` meaning background
fill.  `none` aborts the fold like a thrown exception. -/
def resolveMaterialPropsWith (res : String → String → Option CssObj) (css : CssObj) :
    List (String × String) → Option CssObj
  | [] => some css
  | (k, v) :: rest =>
    match (if k = "color" then some [("background", v)] else res k v) with
    | none => none
    | some d => resolveMaterialPropsWith res (jsAssign css d) rest

/-- The names that the bracket read `materialMap[value]` finds on
`Object.prototype` even when no material of that name was defined: the
material map is an object literal, so the lookup walks the prototype chain,
and every one of these inherited members is truthy. -/
def objectProtoKeys : List String :=
  ["constructor", "hasOwnProperty", "isPrototypeOf", "propertyIsEnumerable",
   "toLocaleString", "toString", "valueOf", "__defineGetter__",
   "__defineSetter__", "__lookupGetter__", "__lookupSetter__", "__proto__"]

/-- The property switch of `resolveSurfaceProp(key, value, materialMap)`
(src/lumen.js lines 491-571), with the resolution of a found named material
(`resolveMaterialNode(materialMap[value], materialMap)`) abstracted as
`refResolve` so that the switch itself is not recursive.  The truthiness
test `if (materialMap[value])` walks the prototype chain: when `value` is
an own key the material node is found; when `value` is an inherited
`Object.prototype` member the test is still truthy and the code passes a
non-node to `resolveMaterialNode`, whose `node.properties.forEach` throws a
TypeError — modeled as `none`, an abnormal end with no declarations. -/
def resolveSurfacePropCore (refResolve : List (String × String) → Option CssObj)
    (key value : String) (mm : MatMap) : Option CssObj :=
  if key = "width" then
    some (if value = "fill" then [("flex", "1"), ("min-width", "0")] else [("width", value)])
  else if key = "height" then
    some (if value = "fill" then [("flex", "1"), ("min-height", "0")] else [("height", value)])
  else if key = "min-width" then some [("min-width", value)]
  else if key = "max-width" then some [("max-width", value)]
  else if key = "min-height" then some [("min-height", value)]
  else if key = "max-height" then some [("max-height", value)]
  else if key = "material" then
    match mm.lookup value with
    | some node => refResolve node
    | none =>
      if value ∈ objectProtoKeys then none
      else some (resolveMaterialValue value)
  else if key = "use" then
    match mm.lookup value with
    | some node => refResolve node
    | none =>
      if value ∈ objectProtoKeys then none
      else some []
  else if key = "layout" then
    some [("display", "flex"),
          ("flex-direction",
           if value.toList.takeWhile (fun c => ¬ (jsWs c)) = "row".toList then "row"
           else "column")]
  else if key = "gap" then some [("gap", value)]
  else if key = "wrap" then
    some [("flex-wrap", if value = "true" then "wrap" else "nowrap")]
  else if key = "align" then
    some [("align-items",
           if value = "start" then "flex-start"
           else if value = "end" then "flex-end" else value)]
  else if key = "justify" then
    some [("justify-content",
           if value = "start" then "flex-start"
           else if value = "end" then "flex-end"
           else if value = "between" then "space-between"
           else if value = "around" then "space-around"
           else if value = "evenly" then "space-evenly" else value)]
  else if key = "radius" then some [("border-radius", value)]
  else if key = "opacity" then some [("opacity", value)]
  else if key = "border" then some [("border", value)]
  else if key = "shadow" then some [("box-shadow", value)]
  else if key = "layer" then some [("z-index", value)]
  else if key = "overflow" then some [("overflow", value)]
  else if key = "cursor" then some [("cursor", value)]
  else if key = "padding" then some [("padding", value)]
  else if key = "margin" then some [("margin", value)]
  else if key = "transition" then some [("transition", value)]
  else some [(key, value)]

/-- Model of `resolveSurfaceProp(key, value, materialMap)` (src/lumen.js
lines 491-571).  The JS function recurses into `resolveMaterialNode` on a
named-material reference found in the table and diverges on cyclic
reference chains; `fuel` is consumed exactly at that reference step, and
every property of the referenced material is resolved at the same remaining
depth, as in JS.  `none` models an abnormal end: divergence on a cyclic
chain, or the TypeError thrown when a prototype-chain hit reaches
`resolveMaterialNode` with a non-node. -/
def resolveSurfaceProp (fuel : Nat) (key value : String) (mm : MatMap) : Option CssObj :=
  resolveSurfacePropCore
    (fun node =>
      match fuel with
      | 0 => none
      | f + 1 => resolveMaterialPropsWith (fun k v => resolveSurfaceProp f k v mm) [] node)
    key value mm

/-- Model of `resolveMaterialNode(node, materialMap)` (src/lumen.js lines
577-590): fold the material node's properties into a fresh object, with
`color` meaning background fill and every other key resolved as a surface
property against the same material table at the same remaining depth. -/
def resolveMaterialNode (fuel : Nat) (node : List (String × String)) (mm : MatMap) :
    Option CssObj :=
  resolveMaterialPropsWith (fun k v => resolveSurfaceProp fuel k v mm) [] node

/-- The `forEach` fold applying `resolveSurfaceProp` to a node's declared
properties inside `compileSurface` (src/lumen.js lines 641-643), starting
from the object `css`. -/
def resolveSurfaceProps (rfuel : Nat) (mm : MatMap) (css : CssObj) :
    List (String × String) → Option CssObj
  | [] => some css
  | (k, v) :: rest =>
    match resolveSurfaceProp rfuel k v mm with
    | none => none
    | some d => resolveSurfaceProps rfuel mm (jsAssign css d) rest

/-- Model of `resolveTextProp(key, value)` (src/lumen.js lines 595-611). -/
def resolveTextProp (key value : String) : CssObj :=
  if key = "font" then [("font-family", value)]
  else if key = "size" then [("font-size", value)]
  else if key = "color" then [("color", value)]
  else if key = "weight" then [("font-weight", value)]
  else if key = "align" then [("text-align", value)]
  else if key = "spacing" then [("letter-spacing", value)]
  else if key = "height" then [("line-height", value)]
  else if key = "style" then [("font-style", value)]
  else if key = "transform" then [("text-transform", value)]
  else if key = "decoration" then [("text-decoration", value)]
  else if key = "wrap" then [("white-space", if value = "false" then "nowrap" else "normal")]
  else if key = "padding" then [("padding", value)]
  else [(key, value)]

/-- Model of `cssObjectToString(obj)` (src/lumen.js lines 615-619). -/
def cssObjectToString (obj : CssObj) : String :=
  jsJoin "; " (obj.map fun kv => kv.1 ++ ": " ++ kv.2)

/-- Model of `escapeHTML(str)` (src/lumen.js lines 621-627): four global
replacements applied in sequence. -/
def escapeHTML (s : String) : String :=
  jsReplaceAllChar
    (jsReplaceAllChar (jsReplaceAllChar (jsReplaceAllChar s '&' "&amp;") '<' "&lt;")
      '>' "&gt;")
    '"' "&quot;"

/-- The two baseline declarations every surface starts with
(src/lumen.js lines 635-638). -/
def surfaceBaseCss : CssObj := [("box-sizing", "border-box"), ("position", "relative")]

/-- The record returned by `compileSurface` / `compileText`:
`{ id, css, html }`. -/
structure SurfaceOut where
  id : String
  css : String
  html : String
deriving DecidableEq, Repr

/-- Model of `compileText(node)` (src/lumen.js lines 672-684).  The
identifier counter `c` is threaded explicitly: `genId()` is `c + 1`. -/
def compileText (content : String) (props : List (String × String)) (c : Nat) :
    SurfaceOut × Nat :=
  let c1 := c + 1
  let idStr := "lm" ++ toString c1
  let css := props.foldl (fun css p => jsAssign css (resolveTextProp p.1 p.2))
    [("box-sizing", "border-box"), ("margin", "0")]
  (⟨idStr,
    "#" ++ idStr ++ " \x7b " ++ cssObjectToString css ++ " \x7d",
    "<p id=\"" ++ idStr ++ "\" class=\"lumen-text\">" ++ escapeHTML content ++ "</p>"⟩,
   c1)

-- `compileSurface` recurses into its children; the recursion is structural
-- over an explicit fuel consumed once per call, with `none` on exhaustion;
-- `compile` supplies fuel larger than any reachable call count, and the
-- theorems quantify over sufficient fuel.  `rfuel` is the independent
-- material-reference depth passed to the property resolver.
mutual

/-- Model of `compileSurface(node, materialMap)` (src/lumen.js lines
631-668): draw a fresh identifier, resolve the node's properties onto the
two baseline declarations, compile the children, and produce the rule block
joined with the children's css plus the wrapping div. -/
def compileSurface (fuel rfuel : Nat) (name : String) (props : List (String × String))
    (children : List LNode) (mm : MatMap) (c : Nat) : Option (SurfaceOut × Nat) :=
  match fuel with
  | 0 => none
  | f + 1 =>
    let c1 := c + 1
    let idStr := "lm" ++ toString c1
    match resolveSurfaceProps rfuel mm surfaceBaseCss props with
    | none => none
    | some css =>
      match compileChildren f rfuel children mm c1 with
      | none => none
      | some (cssBlocks, htmls, c2) =>
        some (⟨idStr,
               jsJoin "\n"
                 (("#" ++ idStr ++ " \x7b " ++ cssObjectToString css ++ " \x7d") :: cssBlocks),
               "<div id=\"" ++ idStr ++ "\" class=\"lumen-surface\" data-name=\"" ++
                 escapeHTML name ++ "\">" ++ jsJoin "\n" htmls ++ "</div>"⟩,
              c2)

/-- The `forEach` over children inside `compileSurface` (src/lumen.js lines
649-659): collect each child's css text and html text in order, threading
the identifier counter. -/
def compileChildren (fuel rfuel : Nat) (ns : List LNode) (mm : MatMap) (c : Nat) :
    Option (List String × List String × Nat) :=
  match fuel with
  | 0 => none
  | f + 1 =>
    match ns with
    | [] => some ([], [], c)
    | .surface nm ps ch :: rest =>
      match compileSurface f rfuel nm ps ch mm c with
      | none => none
      | some (r, c1) =>
        match compileChildren f rfuel rest mm c1 with
        | none => none
        | some (cs, hs, c2) => some (r.css :: cs, r.html :: hs, c2)
    | .text content ps :: rest =>
      let rt := compileText content ps c
      match compileChildren f rfuel rest mm rt.2 with
      | none => none
      | some (cs, hs, c2) => some (rt.1.css :: cs, rt.1.html :: hs, c2)

end

/-- Pass 1 of `compile` (src/lumen.js lines 696-701): collect all Material
nodes into the lookup table, later names overwriting earlier ones. -/
def collectMaterials (body : List TopStmt) : MatMap :=
  body.foldl
    (fun m s => match s with
      | .mat n ps => jsUpsert m n ps
      | _ => m)
    []

/-- Pass 2 of `compile` (src/lumen.js lines 704-714): compile each
top-level Surface node in order, collecting css and html blocks. -/
def compileTops (fuel rfuel : Nat) (stmts : List TopStmt) (mm : MatMap) (c : Nat) :
    Option (List String × List String × Nat) :=
  match stmts with
  | [] => some ([], [], c)
  | .surf node :: rest =>
    (match node with
     | .surface nm ps ch =>
       match compileSurface fuel rfuel nm ps ch mm c with
       | none => none
       | some (r, c1) =>
         match compileTops fuel rfuel rest mm c1 with
         | none => none
         | some (cs, hs, c2) => some (r.css :: cs, r.html :: hs, c2)
     | .text _ _ => compileTops fuel rfuel rest mm c)
  | .mat _ _ :: rest => compileTops fuel rfuel rest mm c

/-- Model of `compile(ast)` (src/lumen.js lines 694-720): the two passes,
returning the newline-joined css and html blocks; the threaded identifier
counter comes in as `c` and leaves with the result. -/
def compile (fuel rfuel : Nat) (body : List TopStmt) (c : Nat) :
    Option ((String × String) × Nat) :=
  match compileTops fuel rfuel body (collectMaterials body) c with
  | none => none
  | some (cs, hs, c1) => some ((jsJoin "\n" cs, jsJoin "\n" hs), c1)

-- ============================================================
-- Specification-side definitions used to state the claims
-- ============================================================

/-- Spec-side formulation for the named-style indirection claim: resolve
the referenced material's property list inline on the referencing surface
(each property through `resolveSurfaceProp` itself, merged with the same
`Object.assign` semantics, starting from an empty declaration object),
except that a `color` key resolves to a `background` declaration. -/
def inlineDeclsExceptColor (fuel : Nat) (mm : MatMap) (css : CssObj) :
    List (String × String) → Option CssObj
  | [] => some css
  | (k, v) :: rest =>
    match (if k = "color" then some [("background", v)] else resolveSurfaceProp fuel k v mm) with
    | none => none
    | some d => inlineDeclsExceptColor fuel mm (jsAssign css d) rest

/-- The children list of a chain of containers described outer-to-inner by
(name, properties) pairs: each container has exactly one child container,
the innermost none. -/
def mkChainKids : List (String × List (String × String)) → List LNode
  | [] => []
  | (nm, ps) :: tl => [LNode.surface nm ps (mkChainKids tl)]

/-- The identifiers `c+1, c+2, ..., c+n` drawn from a counter at `c`. -/
def idSpan (c n : Nat) : List Nat := (List.range n).map fun i => c + 1 + i

/-- The css rule block for identifier number `i` with declaration text
`decls`. -/
def ruleOf (i : Nat) (decls : String) : String :=
  "#lm" ++ toString i ++ " \x7b " ++ decls ++ " \x7d"

/-- The surface element for identifier number `i`, name `nm` and inner
markup `inner`. -/
def divWrap (i : Nat) (nm inner : String) : String :=
  "<div id=\"lm" ++ toString i ++ "\" class=\"lumen-surface\" data-name=\"" ++
    escapeHTML nm ++ "\">" ++ inner ++ "</div>"

/-- Strictly nested chain markup: each (identifier, name) wraps the rest. -/
def nestChainHtml : List (Nat × String) → String
  | [] => ""
  | (i, nm) :: rest => divWrap i nm (nestChainHtml rest)

/-- Every property list of the chain resolves (no divergent material
reference), so that compilation returns a result as in JS. -/
def AllResolvable (rfuel : Nat) (mm : MatMap)
    (l : List (String × List (String × String))) : Prop :=
  ∀ e ∈ l, (resolveSurfaceProps rfuel mm surfaceBaseCss e.2).isSome

mutual

/-- Number of identifiers `compileSurface` draws for one surface node:
one for the node plus those of its children. -/
def countNode : LNode → Nat
  | .surface _ _ ch => 1 + countNodes ch
  | .text _ _ => 1

/-- Number of identifiers drawn for a children list. -/
def countNodes : List LNode → Nat
  | [] => 0
  | n :: rest => countNode n + countNodes rest

end

/-- Number of identifiers one `compile` run draws for a program body
(materials and stray top-level text nodes draw none). -/
def countProgram : List TopStmt → Nat
  | [] => 0
  | .surf (LNode.surface _ _ ch) :: rest => 1 + countNodes ch + countProgram rest
  | _ :: rest => countProgram rest

/-- A program body containing at least one top-level surface statement. -/
def hasSurface (body : List TopStmt) : Bool :=
  body.any fun s => match s with
    | .surf (LNode.surface _ _ _) => true
    | _ => false

theorem skipNewlines_cons (t : Token) (l : List Token) (h : t.type ≠ TokType.NEWLINE) :
    skipNewlines (t :: l) = t :: l := by
  have hb : (t.type == TokType.NEWLINE) = false := by simp [h]
  simp [skipNewlines, List.dropWhile, hb]

theorem parseSurface_noName (f : Nat) (v : String) (t : Token) (rest : List Token)
    (h : t.type ≠ TokType.IDENT) :
    parseSurface (f + 1) (⟨.KEYWORD, v⟩ :: t :: rest) =
      .error (.lumenError (expectMsg .IDENT t)) := by
  simp only [parseSurface, expect, peekT, List.headD_cons, List.tail_cons]
  simp [h]

theorem parseMaterial_noName (f : Nat) (v : String) (t : Token) (rest : List Token)
    (h : t.type ≠ TokType.IDENT) :
    parseMaterial (f + 1) (⟨.KEYWORD, v⟩ :: t :: rest) =
      .error (.lumenError (expectMsg .IDENT t)) := by
  simp only [parseMaterial, expect, peekT, List.headD_cons, List.tail_cons]
  simp [h]

theorem parseStatement_surfaceErr (f : Nat) (l : List Token) (e : JsError)
    (h1 : (peekT l).type = TokType.KEYWORD) (h2 : (peekT l).value = "surface")
    (herr : parseSurface f l = .error e) :
    parseStatement (f + 1) l = .error e := by
  simp only [parseStatement]
  rw [if_pos ⟨h1, h2⟩, herr]

theorem parseStatement_materialErr (f : Nat) (l : List Token) (e : JsError)
    (h1 : (peekT l).type = TokType.KEYWORD) (h2 : (peekT l).value = "material")
    (herr : parseMaterial f l = .error e) :
    parseStatement (f + 1) l = .error e := by
  simp only [parseStatement]
  rw [if_neg, if_pos ⟨h1, h2⟩, herr]
  simp [h2]

theorem parseProgramLoop_err (f : Nat) (l : List Token) (e : JsError)
    (hEOF : (peekT l).type ≠ TokType.EOF) (h : parseStatement f l = .error e) :
    parseProgramLoop (f + 1) l = .error e := by
  have hne : l ≠ [] := by intro he; subst he; exact hEOF rfl
  simp only [parseProgramLoop]
  rw [if_neg hne, if_neg hEOF, h]

theorem parseSurface_noLBrace (f : Nat) (nm : String) (t : Token) (rest : List Token)
    (h1 : t.type ≠ TokType.LBRACE) (h2 : t.type ≠ TokType.NEWLINE) :
    parseSurface (f + 1) (⟨.KEYWORD, "surface"⟩ :: ⟨.IDENT, nm⟩ :: t :: rest) =
      .error (.lumenError (expectMsg .LBRACE t)) := by
  simp [parseSurface, expect, peekT, skipNewlines_cons, h1, h2]

theorem parseSurface_textNoString (f : Nat) (nm : String) (t : Token) (rest : List Token)
    (h : t.type ≠ TokType.STRING) :
    parseSurface (f + 3)
      (⟨.KEYWORD, "surface"⟩ :: ⟨.IDENT, nm⟩ :: ⟨.LBRACE, ""⟩ :: ⟨.KEYWORD, "text"⟩ ::
        t :: rest) = .error (.lumenError (expectMsg .STRING t)) := by
  simp [parseSurface, parseSurfaceBody, parseText, expect, peekT, skipNewlines_cons, h]

theorem parseSurface_unclosed (f : Nat) (nm : String) :
    parseSurface (f + 2) [⟨.KEYWORD, "surface"⟩, ⟨.IDENT, nm⟩, ⟨.LBRACE, ""⟩, ⟨.EOF, ""⟩] =
      .error (.lumenError (expectMsg .RBRACE ⟨.EOF, ""⟩)) := by
  simp [parseSurface, parseSurfaceBody, expect, peekT, skipNewlines_cons]

/-- C4 (amended): wherever the grammar mandates a token that is absent — a
name missing after the `surface` or `material` reserved word, a quoted
string missing after the `text` keyword, or a missing block delimiter (`{`
after the surface header, `}` before the end of input reached by the body
loop's exit check) — `parse` returns a structured `LumenError` whose
message names the expected and the actual token type, and no tree is
produced; except that a body whose trailing unrecognized token is followed
only by line breaks and the end of input makes the skip branch consume the
EOF token, and the parser then crashes with a TypeError instead of a
structured error (see the counterexample). -/
theorem c4_missing_token_parse_failure (t : Token) (rest : List Token) (nm : String) :
    (t.type ≠ TokType.IDENT →
      parse (⟨.KEYWORD, "surface"⟩ :: t :: rest) =
        .error (.lumenError (expectMsg .IDENT t))) ∧
    (t.type ≠ TokType.IDENT →
      parse (⟨.KEYWORD, "material"⟩ :: t :: rest) =
        .error (.lumenError (expectMsg .IDENT t))) ∧
    (t.type ≠ TokType.LBRACE → t.type ≠ TokType.NEWLINE →
      parse (⟨.KEYWORD, "surface"⟩ :: ⟨.IDENT, nm⟩ :: t :: rest) =
        .error (.lumenError (expectMsg .LBRACE t))) ∧
    (t.type ≠ TokType.STRING →
      parse (⟨.KEYWORD, "surface"⟩ :: ⟨.IDENT, nm⟩ :: ⟨.LBRACE, ""⟩ ::
        ⟨.KEYWORD, "text"⟩ :: t :: rest) =
        .error (.lumenError (expectMsg .STRING t))) ∧
    (parse [⟨.KEYWORD, "surface"⟩, ⟨.IDENT, nm⟩, ⟨.LBRACE, ""⟩, ⟨.EOF, ""⟩] =
      .error (.lumenError (expectMsg .RBRACE ⟨.EOF, ""⟩))) := by
  refine ⟨fun h => ?_, fun h => ?_, fun h1 h2 => ?_, fun h => ?_, ?_⟩
  · rw [parse, skipNewlines_cons _ _ (by simp)]
    have hf : parseFuel (⟨.KEYWORD, "surface"⟩ :: t :: rest) = (8 * rest.length + 31) + 1 := by
      simp [parseFuel]; omega
    rw [hf]
    exact parseProgramLoop_err _ _ _ (by simp [peekT])
      (parseStatement_surfaceErr _ _ _ (by simp [peekT]) (by simp [peekT])
        (parseSurface_noName (8 * rest.length + 29) _ t rest h))
  · rw [parse, skipNewlines_cons _ _ (by simp)]
    have hf : parseFuel (⟨.KEYWORD, "material"⟩ :: t :: rest) = (8 * rest.length + 31) + 1 := by
      simp [parseFuel]; omega
    rw [hf]
    exact parseProgramLoop_err _ _ _ (by simp [peekT])
      (parseStatement_materialErr _ _ _ (by simp [peekT]) (by simp [peekT])
        (parseMaterial_noName (8 * rest.length + 29) _ t rest h))
  · rw [parse, skipNewlines_cons _ _ (by simp)]
    have hf : parseFuel (⟨.KEYWORD, "surface"⟩ :: ⟨.IDENT, nm⟩ :: t :: rest) =
        (8 * rest.length + 39) + 1 := by
      simp [parseFuel]; omega
    rw [hf]
    exact parseProgramLoop_err _ _ _ (by simp [peekT])
      (parseStatement_surfaceErr _ _ _ (by simp [peekT]) (by simp [peekT])
        (parseSurface_noLBrace (8 * rest.length + 37) nm t rest h1 h2))
  · rw [parse, skipNewlines_cons _ _ (by simp)]
    have hf : parseFuel (⟨.KEYWORD, "surface"⟩ :: ⟨.IDENT, nm⟩ :: ⟨.LBRACE, ""⟩ ::
        ⟨.KEYWORD, "text"⟩ :: t :: rest) = (8 * rest.length + 55) + 1 := by
      simp [parseFuel]; omega
    rw [hf]
    exact parseProgramLoop_err _ _ _ (by simp [peekT])
      (parseStatement_surfaceErr _ _ _ (by simp [peekT]) (by simp [peekT])
        (parseSurface_textNoString (8 * rest.length + 51) nm t rest h))
  · rw [parse, skipNewlines_cons _ _ (by simp)]
    have hf : parseFuel [⟨.KEYWORD, "surface"⟩, ⟨.IDENT, nm⟩, ⟨.LBRACE, ""⟩, ⟨.EOF, ""⟩] =
        47 + 1 := by simp [parseFuel]
    rw [hf]
    exact parseProgramLoop_err _ _ _ (by simp [peekT])
      (parseStatement_surfaceErr _ _ _ (by simp [peekT]) (by simp [peekT])
        (parseSurface_unclosed 44 nm))

/-- Witness for C4 (amended) at concrete tokens. -/
theorem c4_missing_token_parse_failure_witness :
    parse [⟨.KEYWORD, "surface"⟩, ⟨.LBRACE, ""⟩] =
      .error (.lumenError (expectMsg .IDENT ⟨.LBRACE, ""⟩)) :=
  (c4_missing_token_parse_failure ⟨.LBRACE, ""⟩ [] "x").1 (by decide)

/-- Counterexample to C4 as stated: in `surface s {` followed by a colon
line and the end of input, the closing brace the grammar mandates is
absent, but the body loop's skip branch walks over the colon, the line
break and then the EOF token itself, and the loop condition's `peek()`
reads past the end of the token list: the parse ends in a TypeError, not
in a structured parse failure naming expected and actual token types. -/
theorem c4_counterexample :
    parse (tokenize "surface s \x7b\n:\n") = .error .typeError ∧
    ∀ m : String, (JsError.typeError : JsError) ≠ .lumenError m :=
  ⟨rfl, fun m h => JsError.noConfusion h⟩

theorem resolveSurfaceProp_use_found (f : Nat) (value : String) (mm : MatMap)
    (node : List (String × String)) (h : mm.lookup value = some node) :
    resolveSurfaceProp (f + 1) "use" value mm = resolveMaterialNode f node mm := by
  rw [resolveSurfaceProp]
  simp only [resolveSurfacePropCore, String.reduceEq, reduceIte, h, resolveMaterialNode]

theorem resolveSurfaceProp_use_none (fuel : Nat) (value : String) (mm : MatMap)
    (h : mm.lookup value = none) (hp : value ∉ objectProtoKeys) :
    resolveSurfaceProp fuel "use" value mm = some [] := by
  rw [resolveSurfaceProp]
  simp only [resolveSurfacePropCore, String.reduceEq, reduceIte, h]
  rw [if_neg hp]

theorem resolveSurfaceProp_material_found (f : Nat) (value : String) (mm : MatMap)
    (node : List (String × String)) (h : mm.lookup value = some node) :
    resolveSurfaceProp (f + 1) "material" value mm = resolveMaterialNode f node mm := by
  rw [resolveSurfaceProp]
  simp only [resolveSurfacePropCore, String.reduceEq, reduceIte, h, resolveMaterialNode]

theorem resolveSurfaceProp_material_none (fuel : Nat) (value : String) (mm : MatMap)
    (h : mm.lookup value = none) (hp : value ∉ objectProtoKeys) :
    resolveSurfaceProp fuel "material" value mm = some (resolveMaterialValue value) := by
  rw [resolveSurfaceProp]
  simp only [resolveSurfacePropCore, String.reduceEq, reduceIte, h]
  rw [if_neg hp]

/-- C7 (amended): a `use` property whose value names no material in the
table, and is not the name of a member inherited from `Object.prototype`,
contributes no declarations and never raises; under the same conditions a
`material` property falls back to inline material-value resolution and
contributes its background declarations (it does not contribute nothing),
and never raises.  For an inherited member name the truthy prototype-chain
hit passes a non-node to `resolveMaterialNode`, which throws a TypeError
(see the counterexample). -/
theorem c7_unresolved_reference (fuel : Nat) (value : String) (mm : MatMap)
    (h : mm.lookup value = none) (hp : value ∉ objectProtoKeys) :
    resolveSurfaceProp fuel "use" value mm = some [] ∧
    resolveSurfaceProp fuel "material" value mm = some (resolveMaterialValue value) :=
  ⟨resolveSurfaceProp_use_none fuel value mm h hp,
   resolveSurfaceProp_material_none fuel value mm h hp⟩

/-- Witness for C7 (amended) at a concrete absent non-inherited name. -/
theorem c7_unresolved_reference_witness :
    resolveSurfaceProp 3 "use" "ghost" [] = some [] ∧
    resolveSurfaceProp 3 "material" "ghost" [] = some (resolveMaterialValue "ghost") :=
  c7_unresolved_reference 3 "ghost" [] (by decide) (by decide)

/-- Counterexample to C7 as stated, in both halves: with an empty material
table, `material: ghost` resolves to a background declaration — it
contributes declarations rather than none; and `use: toString` names no
material in the table yet finds the inherited `Object.prototype.toString`,
so resolution ends in a TypeError (modeled `none`) rather than returning
the empty declaration set. -/
theorem c7_counterexample :
    List.lookup "ghost" ([] : MatMap) = none ∧
    resolveSurfaceProp 0 "material" "ghost" [] = some [("background", "ghost")] ∧
    resolveSurfaceProp 0 "material" "ghost" [] ≠ some [] ∧
    List.lookup "toString" ([] : MatMap) = none ∧
    resolveSurfaceProp 1 "use" "toString" [] = none ∧
    ∀ css : CssObj, (none : Option CssObj) ≠ some css := by
  refine ⟨rfl, by decide, by decide, rfl, by decide, fun css h => Option.noConfusion h⟩

/-- C10 (amended): inside a text block a `use` property is never looked up
in the material table — `resolveTextProp` takes no table and has no
named-style branch — so its key/value pair passes through as a literal
declaration in the text node's rule; but a `material` property line never
reaches text-property resolution at all: `material` lexes as a reserved
keyword, the text body loop starts a property only at an identifier token,
and the keyword, colon and value tokens of the line are each skipped, so
the line contributes nothing (see the counterexample). -/
theorem c10_text_no_style_lookup (v content : String) (c f : Nat) (rest : List Token) :
    resolveTextProp "use" v = [("use", v)] ∧
    (compileText content [("use", v)] c).1.css =
      ruleOf (c + 1) (cssObjectToString
        [("box-sizing", "border-box"), ("margin", "0"), ("use", v)]) ∧
    tokenize "material" = [⟨.KEYWORD, "material"⟩, ⟨.EOF, ""⟩] ∧
    parseTextBody (f + 3) (⟨.KEYWORD, "material"⟩ :: ⟨.COLON, ""⟩ :: ⟨.VALUE, v⟩ :: rest) =
      parseTextBody f (skipNewlines rest) := by
  refine ⟨by simp [resolveTextProp], ?_, rfl, ?_⟩
  · simp [compileText, resolveTextProp, jsAssign, jsAssign1, ruleOf, ← String.append_assoc]
  · cases hres : parseTextBody f (skipNewlines rest) with
    | error e => simp [parseTextBody, peekT, skipNewlines_cons, hres]
    | ok r => simp [parseTextBody, peekT, skipNewlines_cons, hres]

/-- Counterexample to C10 as stated: in a text block carrying both a
`material:` line and a `use:` line, the parsed text node keeps only the
`use` property — `material` lexes as a reserved keyword and its line is
discarded by the text body loop — and the compiled text rule contains the
literal `use` declaration but no `material` declaration. -/
theorem c10_counterexample :
    parse (tokenize "surface s \x7b\ntext \"hi\" \x7b\nmaterial: red\nuse: panel\n\x7d\n\x7d") =
      .ok [.surf (.surface "s" [] [.text "hi" [("use", "panel")]])] ∧
    compile 6 6 [.surf (.surface "s" [] [.text "hi" [("use", "panel")]])] 0 =
      some (("#lm1 \x7b box-sizing: border-box; position: relative \x7d\n#lm2 \x7b box-sizing: border-box; margin: 0; use: panel \x7d",
             "<div id=\"lm1\" class=\"lumen-surface\" data-name=\"s\"><p id=\"lm2\" class=\"lumen-text\">hi</p></div>"),
            2) :=
  ⟨rfl, rfl⟩

theorem resolveMaterialProps_eq_inline (f : Nat) (mm : MatMap) (css : CssObj)
    (props : List (String × String)) :
    resolveMaterialPropsWith (fun k v => resolveSurfaceProp f k v mm) css props =
      inlineDeclsExceptColor f mm css props := by
  induction props generalizing css with
  | nil => rfl
  | cons p rest ih =>
    obtain ⟨k, v⟩ := p
    simp only [resolveMaterialPropsWith, inlineDeclsExceptColor]
    cases hr : (if k = "color" then some [("background", v)] else resolveSurfaceProp f k v mm) with
    | none => rfl
    | some d => exact ih (jsAssign css d)

/-- C1: a surface property `use: M` or `material: M` referencing a defined
material `M` merges exactly the declarations obtained by resolving `M`'s
property list inline on the surface (each property through
`resolveSurfaceProp` itself, starting from an empty object, merged with the
same assignment semantics), except that a `color` property arriving through
the material resolves to a `background` declaration.  The fuel on the right
is one less: the reference consumed one level of the reference-depth
budget. -/
theorem c1_named_style_indirection (f : Nat) (name : String) (mm : MatMap)
    (props : List (String × String)) (h : mm.lookup name = some props) :
    resolveSurfaceProp (f + 1) "use" name mm = inlineDeclsExceptColor f mm [] props ∧
    resolveSurfaceProp (f + 1) "material" name mm = inlineDeclsExceptColor f mm [] props := by
  rw [resolveSurfaceProp_use_found f name mm props h,
    resolveSurfaceProp_material_found f name mm props h]
  rw [resolveMaterialNode, resolveMaterialProps_eq_inline]
  exact ⟨rfl, rfl⟩

/-- Witness for C1: a material `panel` with a `color` and a `radius`
property applied through `use` and through `material`. -/
theorem c1_named_style_indirection_witness :
    resolveSurfaceProp 1 "use" "panel" [("panel", [("color", "#111827"), ("radius", "4px")])] =
      inlineDeclsExceptColor 0 [("panel", [("color", "#111827"), ("radius", "4px")])] []
        [("color", "#111827"), ("radius", "4px")] ∧
    resolveSurfaceProp 1 "material" "panel"
        [("panel", [("color", "#111827"), ("radius", "4px")])] =
      inlineDeclsExceptColor 0 [("panel", [("color", "#111827"), ("radius", "4px")])] []
        [("color", "#111827"), ("radius", "4px")] :=
  c1_named_style_indirection 0 "panel" [("panel", [("color", "#111827"), ("radius", "4px")])]
    [("color", "#111827"), ("radius", "4px")] (by decide)

theorem skipNewlines_replicate (m : Nat) (l : List Token) :
    skipNewlines (List.replicate m ⟨.NEWLINE, ""⟩ ++ l) = skipNewlines l := by
  induction m with
  | zero => simp
  | succ n ih => simpa [skipNewlines, List.replicate, List.dropWhile] using ih

/-- C8 (amended): a property line whose identifier is not followed — after
skipping any line breaks — by a colon contributes no property and the
surface-body loop continues parsing; but the colon search crosses line
breaks, so a colon opening a subsequent line still attaches to the
identifier (see the counterexample). -/
theorem c8_no_colon_line_discarded (f m : Nat) (k : String) (t : Token) (rest : List Token)
    (h1 : t.type ≠ TokType.COLON) (h2 : t.type ≠ TokType.NEWLINE) :
    parseProperty (⟨.IDENT, k⟩ :: (List.replicate m ⟨.NEWLINE, ""⟩ ++ t :: rest)) =
      (none, t :: rest) ∧
    parseSurfaceBody (f + 1) (⟨.IDENT, k⟩ :: (List.replicate m ⟨.NEWLINE, ""⟩ ++ t :: rest)) =
      parseSurfaceBody f (t :: rest) := by
  have hp : parseProperty (⟨.IDENT, k⟩ :: (List.replicate m ⟨.NEWLINE, ""⟩ ++ t :: rest)) =
      (none, t :: rest) := by
    simp only [parseProperty, peekT, List.headD_cons, List.tail_cons,
      skipNewlines_replicate, skipNewlines_cons t rest h2]
    simp [h1]
  refine ⟨hp, ?_⟩
  cases hres : parseSurfaceBody f (t :: rest) with
  | error e =>
    simp [parseSurfaceBody, peekT, skipNewlines_cons, skipNewlines_replicate, hp, hres, h2]
  | ok r =>
    simp [parseSurfaceBody, peekT, skipNewlines_cons, skipNewlines_replicate, hp, hres, h2]

/-- Witness for C8 (amended) at a concrete token, fuel and suffix. -/
theorem c8_no_colon_line_discarded_witness :
    parseProperty (⟨.IDENT, "x"⟩ :: (List.replicate 1 ⟨.NEWLINE, ""⟩ ++
      ⟨.RBRACE, ""⟩ :: [⟨.EOF, ""⟩])) = (none, ⟨.RBRACE, ""⟩ :: [⟨.EOF, ""⟩]) ∧
    parseSurfaceBody 2 (⟨.IDENT, "x"⟩ :: (List.replicate 1 ⟨.NEWLINE, ""⟩ ++
      ⟨.RBRACE, ""⟩ :: [⟨.EOF, ""⟩])) = parseSurfaceBody 1 (⟨.RBRACE, ""⟩ :: [⟨.EOF, ""⟩]) :=
  c8_no_colon_line_discarded 1 1 "x" ⟨.RBRACE, ""⟩ [⟨.EOF, ""⟩] (by decide) (by decide)

/-- Counterexample to C8 as stated: the line `bogus` inside the block has
no colon before its line break, yet the colon opening the next line
attaches to it, so the line does contribute a property (key `bogus`,
value `5px`). -/
theorem c8_counterexample :
    parse (tokenize "surface s \x7b\nbogus\n: 5px\n\x7d") =
      .ok [.surf (.surface "s" [("bogus", "5px")] [])] := rfl

theorem jsAssign1_replace_keys (obj : CssObj) (k v : String) :
    (obj.map fun kv => if kv.1 = k then (k, v) else kv).map Prod.fst =
      obj.map Prod.fst := by
  induction obj with
  | nil => rfl
  | cons q rest ih =>
    simp only [List.map_cons, List.cons.injEq]
    exact ⟨by split <;> simp_all, ih⟩

theorem jsAssign1_keys_nodup (obj : CssObj) (k v : String)
    (h : (obj.map Prod.fst).Nodup) : ((jsAssign1 obj k v).map Prod.fst).Nodup := by
  unfold jsAssign1
  split
  · rw [jsAssign1_replace_keys]; exact h
  · rename_i hnc
    simp only [List.map_append, List.map_cons, List.map_nil]
    rw [List.nodup_append]
    refine ⟨h, List.nodup_singleton k, ?_⟩
    intro a ha
    simp only [List.mem_singleton]
    intro heq
    subst heq
    exact hnc ha

theorem jsAssign_keys_nodup (src obj : CssObj)
    (h : (obj.map Prod.fst).Nodup) : ((jsAssign obj src).map Prod.fst).Nodup := by
  induction src generalizing obj with
  | nil => exact h
  | cons q rest ih => exact ih _ (jsAssign1_keys_nodup obj q.1 q.2 h)

theorem filter_key_eq_nil (obj : CssObj) (k : String) (h : k ∉ obj.map Prod.fst) :
    obj.filter (fun kv => kv.1 == k) = [] := by
  induction obj with
  | nil => rfl
  | cons q rest ih =>
    simp only [List.map_cons, List.mem_cons, not_or] at h
    simp only [List.filter_cons]
    rw [if_neg (by simp [Ne.symm h.1]), ih h.2]

theorem map_replace_id (obj : CssObj) (k v : String) (h : k ∉ obj.map Prod.fst) :
    obj.map (fun kv => if kv.1 = k then (k, v) else kv) = obj := by
  induction obj with
  | nil => rfl
  | cons q rest ih =>
    simp only [List.map_cons, List.mem_cons, not_or] at h ⊢
    rw [if_neg (Ne.symm h.1), ih h.2]

theorem jsAssign1_filter_self (obj : CssObj) (k v : String)
    (h : (obj.map Prod.fst).Nodup) :
    (jsAssign1 obj k v).filter (fun kv => kv.1 == k) = [(k, v)] := by
  unfold jsAssign1
  split
  · rename_i hin
    induction obj with
    | nil => simp at hin
    | cons q rest ih =>
      simp only [List.map_cons, List.nodup_cons] at h
      simp only [List.map_cons, List.mem_cons] at hin
      by_cases hq : q.1 = k
      · subst hq
        simp only [List.map_cons, if_pos rfl, List.filter_cons]
        rw [map_replace_id rest q.1 v h.1, filter_key_eq_nil rest q.1 h.1]
        simp
      · simp only [List.map_cons, if_neg hq, List.filter_cons]
        rw [if_neg (by simp [hq])]
        exact ih h.2 (hin.resolve_left fun e => hq e.symm)
  · rename_i hnin
    rw [List.filter_append, filter_key_eq_nil obj k hnin]
    simp

theorem filter_map_replace (rest : CssObj) (k' v k : String) (h : k ≠ k') :
    (rest.map fun kv => if kv.1 = k' then (k', v) else kv).filter (fun kv => kv.1 == k) =
      rest.filter (fun kv => kv.1 == k) := by
  induction rest with
  | nil => rfl
  | cons q tl ih =>
    by_cases hq : q.1 = k'
    · have h2 : (q.1 == k) = false := by simp [hq, Ne.symm h]
      have h1 : ((k', v).1 == k) = false := by simp [Ne.symm h]
      simp only [List.map_cons, if_pos hq, List.filter_cons, h1, h2, Bool.false_eq_true,
        if_false]
      exact ih
    · simp only [List.map_cons, if_neg hq, List.filter_cons]
      by_cases hqk : q.1 = k
      · simp only [hqk, beq_self_eq_true, if_pos, List.cons.injEq, true_and]
        exact ih
      · have h2 : (q.1 == k) = false := by simp [hqk]
        simp only [h2, Bool.false_eq_true, if_false]
        exact ih

theorem jsAssign1_filter_other (obj : CssObj) (k' v k : String) (h : k ≠ k') :
    (jsAssign1 obj k' v).filter (fun kv => kv.1 == k) =
      obj.filter (fun kv => kv.1 == k) := by
  unfold jsAssign1
  split
  · exact filter_map_replace obj k' v k h
  · rw [List.filter_append]
    simp [Ne.symm h]

theorem jsAssign_filter_not_mem (d : CssObj) (obj : CssObj) (k : String)
    (h : k ∉ d.map Prod.fst) :
    (jsAssign obj d).filter (fun kv => kv.1 == k) = obj.filter (fun kv => kv.1 == k) := by
  induction d generalizing obj with
  | nil => rfl
  | cons q rest ih =>
    simp only [List.map_cons, List.mem_cons, not_or] at h
    show (jsAssign (jsAssign1 obj q.1 q.2) rest).filter _ = _
    rw [ih _ h.2, jsAssign1_filter_other obj q.1 q.2 k h.1]

theorem jsAssign_filter_of_mem (d : CssObj) (obj : CssObj) (k v : String)
    (hobj : (obj.map Prod.fst).Nodup) (hd : (d.map Prod.fst).Nodup) (hkv : (k, v) ∈ d) :
    (jsAssign obj d).filter (fun kv => kv.1 == k) = [(k, v)] := by
  induction d generalizing obj with
  | nil => simp at hkv
  | cons q rest ih =>
    simp only [List.map_cons, List.nodup_cons] at hd
    rcases List.mem_cons.mp hkv with hq | hrest
    · subst hq
      show (jsAssign (jsAssign1 obj k v) rest).filter _ = _
      rw [jsAssign_filter_not_mem rest _ k hd.1, jsAssign1_filter_self obj k v hobj]
    · have hq1 : q.1 ≠ k := by
        intro e
        exact hd.1 (e ▸ (List.mem_map.mpr ⟨(k, v), hrest, rfl⟩))
      show (jsAssign (jsAssign1 obj q.1 q.2) rest).filter _ = _
      exact ih _ (jsAssign1_keys_nodup obj q.1 q.2 hobj) hd.2 hrest

theorem resolveMaterialPropsWith_nodup (res : String → String → Option CssObj)
    (props : List (String × String)) (css out : CssObj)
    (h : resolveMaterialPropsWith res css props = some out)
    (hnd : (css.map Prod.fst).Nodup) : (out.map Prod.fst).Nodup := by
  induction props generalizing css with
  | nil => simp only [resolveMaterialPropsWith] at h; exact (Option.some_inj.mp h) ▸ hnd
  | cons p rest ih =>
    obtain ⟨k, v⟩ := p
    simp only [resolveMaterialPropsWith] at h
    cases hr : (if k = "color" then some [("background", v)] else res k v) with
    | none => rw [hr] at h; exact absurd h (by simp)
    | some d =>
      rw [hr] at h
      exact ih _ h (jsAssign_keys_nodup d css hnd)

theorem resolveMaterialValue_keys_nodup (value : String) :
    ((resolveMaterialValue value).map Prod.fst).Nodup := by
  unfold resolveMaterialValue
  cases parseFn value with
  | none => simp
  | some fa =>
    obtain ⟨fname, args⟩ := fa
    simp only
    split_ifs <;> simp

set_option maxHeartbeats 1000000 in
theorem resolveSurfaceProp_keys_nodup (fuel : Nat) (key value : String) (mm : MatMap)
    (d : CssObj) (h : resolveSurfaceProp fuel key value mm = some d) :
    (d.map Prod.fst).Nodup := by
  rw [resolveSurfaceProp] at h
  delta resolveSurfacePropCore at h
  by_cases h1 : key = "width"
  · rw [if_pos h1] at h
    injection h with h
    subst h
    split <;> simp
  rw [if_neg h1] at h
  by_cases h2 : key = "height"
  · rw [if_pos h2] at h
    injection h with h
    subst h
    split <;> simp
  rw [if_neg h2] at h
  by_cases h3 : key = "min-width"
  · rw [if_pos h3] at h
    injection h with h
    subst h
    simp
  rw [if_neg h3] at h
  by_cases h4 : key = "max-width"
  · rw [if_pos h4] at h
    injection h with h
    subst h
    simp
  rw [if_neg h4] at h
  by_cases h5 : key = "min-height"
  · rw [if_pos h5] at h
    injection h with h
    subst h
    simp
  rw [if_neg h5] at h
  by_cases h6 : key = "max-height"
  · rw [if_pos h6] at h
    injection h with h
    subst h
    simp
  rw [if_neg h6] at h
  by_cases h7 : key = "material"
  · rw [if_pos h7] at h
    cases hl : mm.lookup value with
    | none =>
      rw [hl] at h
      by_cases hpk : value ∈ objectProtoKeys
      · rw [if_pos hpk] at h
        exact absurd h (by simp)
      · rw [if_neg hpk] at h
        injection h with h
        subst h
        exact resolveMaterialValue_keys_nodup value
    | some node =>
      rw [hl] at h
      cases fuel with
      | zero => simp at h
      | succ f => exact resolveMaterialPropsWith_nodup _ _ _ _ h (by simp)
  rw [if_neg h7] at h
  by_cases h8 : key = "use"
  · rw [if_pos h8] at h
    cases hl : mm.lookup value with
    | none =>
      rw [hl] at h
      by_cases hpk : value ∈ objectProtoKeys
      · rw [if_pos hpk] at h
        exact absurd h (by simp)
      · rw [if_neg hpk] at h
        injection h with h
        subst h
        simp
    | some node =>
      rw [hl] at h
      cases fuel with
      | zero => simp at h
      | succ f => exact resolveMaterialPropsWith_nodup _ _ _ _ h (by simp)
  rw [if_neg h8] at h
  by_cases h9 : key = "layout"
  · rw [if_pos h9] at h
    injection h with h
    subst h
    simp
  rw [if_neg h9] at h
  by_cases h10 : key = "gap"
  · rw [if_pos h10] at h
    injection h with h
    subst h
    simp
  rw [if_neg h10] at h
  by_cases h11 : key = "wrap"
  · rw [if_pos h11] at h
    injection h with h
    subst h
    simp
  rw [if_neg h11] at h
  by_cases h12 : key = "align"
  · rw [if_pos h12] at h
    injection h with h
    subst h
    simp
  rw [if_neg h12] at h
  by_cases h13 : key = "justify"
  · rw [if_pos h13] at h
    injection h with h
    subst h
    simp
  rw [if_neg h13] at h
  by_cases h14 : key = "radius"
  · rw [if_pos h14] at h
    injection h with h
    subst h
    simp
  rw [if_neg h14] at h
  by_cases h15 : key = "opacity"
  · rw [if_pos h15] at h
    injection h with h
    subst h
    simp
  rw [if_neg h15] at h
  by_cases h16 : key = "border"
  · rw [if_pos h16] at h
    injection h with h
    subst h
    simp
  rw [if_neg h16] at h
  by_cases h17 : key = "shadow"
  · rw [if_pos h17] at h
    injection h with h
    subst h
    simp
  rw [if_neg h17] at h
  by_cases h18 : key = "layer"
  · rw [if_pos h18] at h
    injection h with h
    subst h
    simp
  rw [if_neg h18] at h
  by_cases h19 : key = "overflow"
  · rw [if_pos h19] at h
    injection h with h
    subst h
    simp
  rw [if_neg h19] at h
  by_cases h20 : key = "cursor"
  · rw [if_pos h20] at h
    injection h with h
    subst h
    simp
  rw [if_neg h20] at h
  by_cases h21 : key = "padding"
  · rw [if_pos h21] at h
    injection h with h
    subst h
    simp
  rw [if_neg h21] at h
  by_cases h22 : key = "margin"
  · rw [if_pos h22] at h
    injection h with h
    subst h
    simp
  rw [if_neg h22] at h
  by_cases h23 : key = "transition"
  · rw [if_pos h23] at h
    injection h with h
    subst h
    simp
  rw [if_neg h23] at h
  injection h with h
  subst h
  simp

theorem resolveSurfaceProps_append (rf : Nat) (mm : MatMap) (css : CssObj)
    (l1 l2 : List (String × String)) :
    resolveSurfaceProps rf mm css (l1 ++ l2) =
      (resolveSurfaceProps rf mm css l1).bind fun o => resolveSurfaceProps rf mm o l2 := by
  induction l1 generalizing css with
  | nil => simp [resolveSurfaceProps]
  | cons p rest ih =>
    obtain ⟨k, v⟩ := p
    simp only [List.cons_append, resolveSurfaceProps]
    cases resolveSurfaceProp rf k v mm with
    | none => simp
    | some d => simpa using ih (jsAssign css d)

theorem resolveSurfaceProps_nodup (rf : Nat) (mm : MatMap)
    (l : List (String × String)) (css out : CssObj)
    (h : resolveSurfaceProps rf mm css l = some out)
    (hnd : (css.map Prod.fst).Nodup) : (out.map Prod.fst).Nodup := by
  induction l generalizing css with
  | nil => simp only [resolveSurfaceProps] at h; exact (Option.some_inj.mp h) ▸ hnd
  | cons p rest ih =>
    obtain ⟨k, v⟩ := p
    simp only [resolveSurfaceProps] at h
    cases hr : resolveSurfaceProp rf k v mm with
    | none => rw [hr] at h; exact absurd h (by simp)
    | some d =>
      rw [hr] at h
      exact ih _ h (jsAssign_keys_nodup d css hnd)

theorem resolveSurfaceProps_filter_pres (rf : Nat) (mm : MatMap)
    (l : List (String × String)) (css out : CssObj) (k : String)
    (h : resolveSurfaceProps rf mm css l = some out)
    (hl : ∀ q ∈ l, ∀ dq, resolveSurfaceProp rf q.1 q.2 mm = some dq →
      k ∉ dq.map Prod.fst) :
    out.filter (fun kv => kv.1 == k) = css.filter (fun kv => kv.1 == k) := by
  induction l generalizing css with
  | nil => simp only [resolveSurfaceProps] at h; rw [← Option.some_inj.mp h]
  | cons p rest ih =>
    obtain ⟨kq, vq⟩ := p
    simp only [resolveSurfaceProps] at h
    cases hr : resolveSurfaceProp rf kq vq mm with
    | none => rw [hr] at h; exact absurd h (by simp)
    | some d =>
      rw [hr] at h
      have hk : k ∉ d.map Prod.fst := hl (kq, vq) (by simp) d hr
      rw [ih _ h (fun q hq => hl q (by simp [hq]))]
      exact jsAssign_filter_not_mem d css k hk

/-- C5: when a node's properties are resolved in source order into its
declaration object, the binding of an output key `k` produced by a property
`p` survives to the finished declaration set exactly when no later property
also produces `k`; the finished set then holds the single binding `(k, v)`
from `p` — the later property wins, and only its value is present. -/
theorem c5_later_property_wins (rf : Nat) (mm : MatMap) (init : CssObj)
    (l1 l2 : List (String × String)) (p : String × String) (k v : String)
    (css d : CssObj)
    (hinit : (init.map Prod.fst).Nodup)
    (hfold : resolveSurfaceProps rf mm init (l1 ++ p :: l2) = some css)
    (hd : resolveSurfaceProp rf p.1 p.2 mm = some d)
    (hkv : (k, v) ∈ d)
    (hlater : ∀ q ∈ l2, ∀ dq, resolveSurfaceProp rf q.1 q.2 mm = some dq →
      k ∉ dq.map Prod.fst) :
    css.filter (fun kv => kv.1 == k) = [(k, v)] := by
  rw [resolveSurfaceProps_append] at hfold
  cases h1 : resolveSurfaceProps rf mm init l1 with
  | none => rw [h1] at hfold; exact absurd hfold (by simp)
  | some css1 =>
    rw [h1] at hfold
    rw [Option.some_bind'] at hfold
    simp only [resolveSurfaceProps] at hfold
    rw [hd] at hfold
    have hnd1 : (css1.map Prod.fst).Nodup := resolveSurfaceProps_nodup rf mm l1 init css1 h1 hinit
    rw [resolveSurfaceProps_filter_pres rf mm l2 _ css k hfold hlater]
    exact jsAssign_filter_of_mem d css1 k v hnd1
      (resolveSurfaceProp_keys_nodup rf p.1 p.2 mm d hd) hkv

/-- Witness for C5: two `padding` properties on one node; the finished
declaration set holds only the later value. -/
theorem c5_later_property_wins_witness :
    ([("box-sizing", "border-box"), ("position", "relative"), ("padding", "2px")] :
        CssObj).filter (fun kv => kv.1 == "padding") = [("padding", "2px")] :=
  c5_later_property_wins 1 [] surfaceBaseCss [("padding", "1px")] [] ("padding", "2px")
    "padding" "2px"
    [("box-sizing", "border-box"), ("position", "relative"), ("padding", "2px")]
    [("padding", "2px")] (by decide) (by decide) (by decide) (by decide)
    (fun q hq => absurd hq (by simp))

theorem compile_counter_aux (fuel : Nat) :
    (∀ rfuel nm ps ch mm c r c', compileSurface fuel rfuel nm ps ch mm c = some (r, c') →
      c' = c + (1 + countNodes ch)) ∧
    (∀ rfuel ns mm c cs hs c', compileChildren fuel rfuel ns mm c = some (cs, hs, c') →
      c' = c + countNodes ns) := by
  induction fuel with
  | zero =>
    constructor <;> intros <;> simp only [compileSurface, compileChildren] at * <;> simp_all
  | succ f ih =>
    constructor
    · intro rfuel nm ps ch mm c r c' h
      simp only [compileSurface] at h
      cases hp : resolveSurfaceProps rfuel mm surfaceBaseCss ps with
      | none => simp [hp] at h
      | some css =>
        cases hc : compileChildren f rfuel ch mm (c + 1) with
        | none => simp [hp, hc] at h
        | some t =>
          obtain ⟨cs, hs, c2⟩ := t
          simp only [hp, hc, Option.some_inj, Prod.mk.injEq] at h
          have := ih.2 rfuel ch mm (c + 1) cs hs c2 hc
          omega
    · intro rfuel ns mm c cs hs c' h
      match ns with
      | [] =>
        simp only [compileChildren, Option.some_inj, Prod.mk.injEq] at h
        simp only [countNodes]
        omega
      | .surface nm ps ch :: rest =>
        simp only [compileChildren] at h
        cases hcs : compileSurface f rfuel nm ps ch mm c with
        | none => simp [hcs] at h
        | some t =>
          obtain ⟨r, c1⟩ := t
          cases hcc : compileChildren f rfuel rest mm c1 with
          | none => simp [hcs, hcc] at h
          | some t2 =>
            obtain ⟨cs2, hs2, c2⟩ := t2
            simp only [hcs, hcc, Option.some_inj, Prod.mk.injEq] at h
            have h1 := ih.1 rfuel nm ps ch mm c r c1 hcs
            have h2 := ih.2 rfuel rest mm c1 cs2 hs2 c2 hcc
            simp only [countNodes, countNode]
            omega
      | .text content ps :: rest =>
        simp only [compileChildren] at h
        cases hcc : compileChildren f rfuel rest mm (compileText content ps c).2 with
        | none => simp [hcc] at h
        | some t2 =>
          obtain ⟨cs2, hs2, c2⟩ := t2
          simp only [hcc, Option.some_inj, Prod.mk.injEq] at h
          have h2 := ih.2 rfuel rest mm (compileText content ps c).2 cs2 hs2 c2 hcc
          have hct : (compileText content ps c).2 = c + 1 := rfl
          simp only [countNodes, countNode]
          omega

theorem compileTops_counter (fuel rfuel : Nat) (stmts : List TopStmt) (mm : MatMap)
    (c : Nat) (cs hs : List String) (c' : Nat)
    (h : compileTops fuel rfuel stmts mm c = some (cs, hs, c')) :
    c' = c + countProgram stmts := by
  induction stmts generalizing c cs hs c' with
  | nil =>
    simp only [compileTops, Option.some_inj, Prod.mk.injEq] at h
    simp only [countProgram]
    omega
  | cons s rest ih =>
    match s with
    | .surf (LNode.surface nm ps ch) =>
      simp only [compileTops] at h
      cases hcs : compileSurface fuel rfuel nm ps ch mm c with
      | none => simp [hcs] at h
      | some t =>
        obtain ⟨r, c1⟩ := t
        cases hct : compileTops fuel rfuel rest mm c1 with
        | none => simp [hcs, hct] at h
        | some t2 =>
          obtain ⟨cs2, hs2, c2⟩ := t2
          simp only [hcs, hct, Option.some_inj, Prod.mk.injEq] at h
          have h1 := (compile_counter_aux fuel).1 rfuel nm ps ch mm c r c1 hcs
          have h2 := ih c1 cs2 hs2 c2 hct
          simp only [countProgram]
          omega
    | .surf (LNode.text content ps) =>
      simp only [compileTops] at h
      have := ih c cs hs c' h
      simpa [countProgram] using this
    | .mat nm ps =>
      simp only [compileTops] at h
      have := ih c cs hs c' h
      simpa [countProgram] using this

theorem compile_counter (fuel rfuel : Nat) (body : List TopStmt) (c : Nat)
    (out : String × String) (c' : Nat) (h : compile fuel rfuel body c = some (out, c')) :
    c' = c + countProgram body := by
  simp only [compile] at h
  cases hct : compileTops fuel rfuel body (collectMaterials body) c with
  | none => simp [hct] at h
  | some t =>
    obtain ⟨cs, hs, c2⟩ := t
    simp only [hct, Option.some_inj, Prod.mk.injEq] at h
    have := compileTops_counter fuel rfuel body (collectMaterials body) c cs hs c2 hct
    omega

theorem mem_idSpan (i c n : Nat) : i ∈ idSpan c n ↔ c + 1 ≤ i ∧ i ≤ c + n := by
  simp only [idSpan, List.mem_map, List.mem_range]
  constructor
  · rintro ⟨j, hj, rfl⟩; omega
  · rintro ⟨h1, h2⟩; exact ⟨i - c - 1, by omega, by omega⟩

/-- C3: with the process-wide identifier counter made explicit, compilation
is a function of the program and the counter value, so two runs started
from the same counter value produce identical output; one successful run
advances the counter by exactly the number of rendered nodes, each compiled
surface's id field is the string form of the counter successor it drew, and
therefore a second run started from the first run's final counter assigns
identifiers wholly disjoint from (and, when the program contains a surface,
nonempty and distinct from) the first run's. -/
theorem c3_counter_determinism (fuel rfuel : Nat) (body : List TopStmt) (c : Nat) :
    (∀ out₁ c₁ out₂ c₂, compile fuel rfuel body c = some (out₁, c₁) →
      compile fuel rfuel body c = some (out₂, c₂) → out₁ = out₂ ∧ c₁ = c₂) ∧
    (∀ out c', compile fuel rfuel body c = some (out, c') → c' = c + countProgram body) ∧
    (∀ f nm ps ch mm c₀ r c', compileSurface (f + 1) rfuel nm ps ch mm c₀ = some (r, c') →
      r.id = "lm" ++ toString (c₀ + 1)) ∧
    (∀ i, i ∈ idSpan c (countProgram body) →
      i ∉ idSpan (c + countProgram body) (countProgram body)) ∧
    (hasSurface body = true → idSpan c (countProgram body) ≠ []) := by
  refine ⟨?_, ?_, ?_, ?_, ?_⟩
  · intro out₁ c₁ out₂ c₂ h1 h2
    rw [h1] at h2
    have e := Option.some_inj.mp h2
    exact ⟨congrArg Prod.fst e, congrArg Prod.snd e⟩
  · intro out c' h
    exact compile_counter fuel rfuel body c out c' h
  · intro f nm ps ch mm c₀ r c' h
    simp only [compileSurface] at h
    cases hp : resolveSurfaceProps rfuel mm surfaceBaseCss ps with
    | none => simp [hp] at h
    | some css =>
      cases hc : compileChildren f rfuel ch mm (c₀ + 1) with
      | none => simp [hp, hc] at h
      | some t =>
        obtain ⟨cs, hs, c2⟩ := t
        simp only [hp, hc, Option.some_inj, Prod.mk.injEq] at h
        rw [← h.1]
  · intro i hi
    rw [mem_idSpan] at hi
    rw [mem_idSpan]
    omega
  · intro hs
    have : 1 ≤ countProgram body := by
      induction body with
      | nil => simp [hasSurface] at hs
      | cons s rest ih =>
        match s with
        | .surf (LNode.surface nm ps ch) => simp only [countProgram]; omega
        | .surf (LNode.text content ps) =>
          simp only [hasSurface, List.any_cons] at hs
          simp only [countProgram]
          exact ih (by simpa [hasSurface] using hs)
        | .mat nm ps =>
          simp only [hasSurface, List.any_cons] at hs
          simp only [countProgram]
          exact ih (by simpa [hasSurface] using hs)
    simp only [idSpan, ne_eq, List.map_eq_nil_iff, List.range_eq_nil]
    omega

/-- Witness for C3 at a one-surface program: a run from counter 0 ends at
counter 1, equals itself, and the id spans of two consecutive runs are
disjoint and nonempty. -/
theorem c3_counter_determinism_witness :
    ((1 : Nat) = 0 + countProgram [TopStmt.surf (LNode.surface "s" [] [])]) ∧
    idSpan 0 (countProgram [TopStmt.surf (LNode.surface "s" [] [])]) ≠ [] :=
  ⟨(c3_counter_determinism 2 1 [TopStmt.surf (LNode.surface "s" [] [])] 0).2.1
      ("#lm1 \x7b box-sizing: border-box; position: relative \x7d",
        "<div id=\"lm1\" class=\"lumen-surface\" data-name=\"s\"></div>") 1 (by decide),
   (c3_counter_determinism 2 1 [TopStmt.surf (LNode.surface "s" [] [])] 0).2.2.2.2
      (by decide)⟩

theorem idSpan_succ (c n : Nat) : idSpan c (n + 1) = (c + 1) :: idSpan (c + 1) n := by
  simp only [idSpan, List.range_succ_eq_map, List.map_cons, List.map_map, Nat.add_zero]
  congr 1
  all_goals try omega
  all_goals apply List.map_congr_left
  all_goals intro i _
  all_goals simp only [Function.comp_apply]
  all_goals omega

theorem jsJoin_cons_ne (s a : String) (bs : List String) (h : bs ≠ []) :
    jsJoin s (a :: bs) = a ++ s ++ jsJoin s bs := by
  cases bs with
  | nil => exact absurd rfl h
  | cons b t => rfl

theorem compileChildren_singleton_surface (g rfuel : Nat) (nm2 : String)
    (ps2 : List (String × String)) (kids : List LNode) (mm : MatMap) (c : Nat)
    (r : SurfaceOut) (c1 : Nat)
    (h : compileSurface (g + 1) rfuel nm2 ps2 kids mm c = some (r, c1)) :
    compileChildren ((g + 1) + 1) rfuel [LNode.surface nm2 ps2 kids] mm c =
      some ([r.css], [r.html], c1) := by
  simp only [compileChildren, h]

theorem compileSurface_unfold_step (g rfuel : Nat) (nm : String)
    (ps : List (String × String)) (kids : List LNode) (mm : MatMap) (c : Nat)
    (css : CssObj) (cs hs : List String) (c2 : Nat)
    (hp : resolveSurfaceProps rfuel mm surfaceBaseCss ps = some css)
    (hch : compileChildren g rfuel kids mm (c + 1) = some (cs, hs, c2)) :
    compileSurface (g + 1) rfuel nm ps kids mm c =
      some (⟨"lm" ++ toString (c + 1),
             jsJoin "\n" (ruleOf (c + 1) (cssObjectToString css) :: cs),
             divWrap (c + 1) nm (jsJoin "\n" hs)⟩, c2) := by
  simp only [compileSurface, hp, hch, ruleOf, divWrap]
  simp [← String.append_assoc]

theorem chainCompile_aux (tl : List (String × List (String × String)))
    (nm : String) (ps : List (String × String)) (rfuel : Nat) (mm : MatMap)
    (c extra : Nat) (hres : AllResolvable rfuel mm ((nm, ps) :: tl)) :
    ∃ decls : List String,
      decls.length = tl.length + 1 ∧
      compileSurface (extra + (2 * tl.length + 2)) rfuel nm ps (mkChainKids tl) mm c =
        some (⟨"lm" ++ toString (c + 1),
               jsJoin "\n" (List.zipWith ruleOf (idSpan c (tl.length + 1)) decls),
               nestChainHtml ((idSpan c (tl.length + 1)).zip
                 (((nm, ps) :: tl).map Prod.fst))⟩,
              c + (tl.length + 1)) := by
  induction tl generalizing nm ps c extra with
  | nil =>
    have hh := hres (nm, ps) (by simp)
    cases hp : resolveSurfaceProps rfuel mm surfaceBaseCss ps with
    | none => rw [hp] at hh; simp at hh
    | some css =>
      refine ⟨[cssObjectToString css], rfl, ?_⟩
      have hch : compileChildren (extra + 1) rfuel [] mm (c + 1) =
          some ([], [], c + 1) := by
        simp only [compileChildren]
      have hmain := compileSurface_unfold_step (extra + 1) rfuel nm ps [] mm c css
        [] [] (c + 1) hp hch
      simp only [List.length_nil, mkChainKids]
      rw [show extra + (2 * 0 + 2) = (extra + 1) + 1 from by omega]
      rw [hmain]
      simp only [idSpan_succ, idSpan, List.range_zero, List.map_nil, List.zipWith_cons_cons,
        List.zipWith_nil_right, List.zip_cons_cons, List.map_cons, List.zip_nil_right,
        nestChainHtml, jsJoin]
  | cons hd tl2 ih =>
    obtain ⟨nm2, ps2⟩ := hd
    have hh := hres (nm, ps) (by simp)
    cases hp : resolveSurfaceProps rfuel mm surfaceBaseCss ps with
    | none => rw [hp] at hh; simp at hh
    | some css =>
      have hres2 : AllResolvable rfuel mm ((nm2, ps2) :: tl2) := by
        intro e he
        exact hres e (by simp [he])
      obtain ⟨decls2, hlen2, heq2⟩ := ih nm2 ps2 (c + 1) extra hres2
      refine ⟨cssObjectToString css :: decls2, by simp [hlen2], ?_⟩
      have hchild := compileChildren_singleton_surface (extra + (2 * tl2.length + 1)) rfuel
        nm2 ps2 (mkChainKids tl2) mm (c + 1) _ _ heq2
      have hmain := compileSurface_unfold_step ((extra + (2 * tl2.length + 1)) + 1 + 1) rfuel
        nm ps [LNode.surface nm2 ps2 (mkChainKids tl2)] mm c css _ _ _ hp hchild
      have hne : List.zipWith ruleOf (idSpan (c + 1) (tl2.length + 1)) decls2 ≠ [] := by
        have h1 : (idSpan (c + 1) (tl2.length + 1)).length = tl2.length + 1 := by
          simp [idSpan]
        intro he
        have hlen := congrArg List.length he
        simp [List.length_zipWith, h1, hlen2] at hlen
      simp only [List.length_cons, List.map_cons, mkChainKids]
      rw [show extra + (2 * (tl2.length + 1) + 2) =
            (extra + (2 * tl2.length + 1)) + 1 + 1 + 1 from by omega,
          show c + (tl2.length + 1 + 1) = (c + 1) + (tl2.length + 1) from by omega,
          idSpan_succ c (tl2.length + 1)]
      rw [hmain]
      simp only [List.zipWith_cons_cons, List.zip_cons_cons, nestChainHtml, List.map_cons]
      rw [jsJoin_cons_ne _ _ _ hne]
      simp only [jsJoin, List.zip]

theorem compile_single_surface (fuel rfuel : Nat) (nm : String)
    (ps : List (String × String)) (kids : List LNode) (c : Nat) (r : SurfaceOut) (c' : Nat)
    (h : compileSurface fuel rfuel nm ps kids [] c = some (r, c')) :
    compile fuel rfuel [TopStmt.surf (LNode.surface nm ps kids)] c =
      some ((r.css, r.html), c') := by
  simp only [compile, compileTops, collectMaterials, List.foldl, h, jsJoin]

/-- C2: a chain of containers described outer-to-inner by (name, property)
pairs — nesting depth N giving N+1 containers — compiles to a css text that
is exactly the newline-join of N+1 rule blocks, one per container, carrying
the consecutive identifiers `c+1 .. c+N+1` in outer-to-inner order, and to
an html text of N+1 strictly nested elements carrying the same identifiers
in the same outer-to-inner order (rule i belongs to the element at nesting
depth i); the identifier counter advances by N+1.  When the chain is the
single top-level statement of a program, `compile` returns exactly this css
and html. -/
theorem c2_chain_rules_and_nesting (tl : List (String × List (String × String)))
    (nm : String) (ps : List (String × String)) (rfuel : Nat) (mm : MatMap)
    (c extra : Nat) (hres : AllResolvable rfuel mm ((nm, ps) :: tl)) :
    ∃ decls : List String,
      decls.length = tl.length + 1 ∧
      (List.zipWith ruleOf (idSpan c (tl.length + 1)) decls).length = tl.length + 1 ∧
      ((idSpan c (tl.length + 1)).zip (((nm, ps) :: tl).map Prod.fst)).length =
        tl.length + 1 ∧
      compileSurface (extra + (2 * tl.length + 2)) rfuel nm ps (mkChainKids tl) mm c =
        some (⟨"lm" ++ toString (c + 1),
               jsJoin "\n" (List.zipWith ruleOf (idSpan c (tl.length + 1)) decls),
               nestChainHtml ((idSpan c (tl.length + 1)).zip
                 (((nm, ps) :: tl).map Prod.fst))⟩,
              c + (tl.length + 1)) ∧
      (mm = [] →
        compile (extra + (2 * tl.length + 2)) rfuel
            [TopStmt.surf (LNode.surface nm ps (mkChainKids tl))] c =
          some ((jsJoin "\n" (List.zipWith ruleOf (idSpan c (tl.length + 1)) decls),
                 nestChainHtml ((idSpan c (tl.length + 1)).zip
                   (((nm, ps) :: tl).map Prod.fst))),
                c + (tl.length + 1))) := by
  obtain ⟨decls, hlen, heq⟩ := chainCompile_aux tl nm ps rfuel mm c extra hres
  have hspan : (idSpan c (tl.length + 1)).length = tl.length + 1 := by simp [idSpan]
  refine ⟨decls, hlen, ?_, ?_, heq, ?_⟩
  · simp [List.length_zipWith, hspan, hlen]
  · simp [List.length_zip, hspan]
  · intro hmm
    subst hmm
    exact compile_single_surface _ _ _ _ _ _ _ _ heq

/-- Witness for C2: a two-container chain (depth 1) from counter 0. -/
theorem c2_chain_rules_and_nesting_witness :
    ∃ decls : List String,
      decls.length = 2 ∧
      (List.zipWith ruleOf (idSpan 0 2) decls).length = 2 ∧
      ((idSpan 0 2).zip ([("outer", ([] : List (String × String))),
        ("inner", [])].map Prod.fst)).length = 2 ∧
      compileSurface (0 + (2 * 1 + 2)) 1 "outer" [] (mkChainKids [("inner", [])]) [] 0 =
        some (⟨"lm" ++ toString (0 + 1),
               jsJoin "\n" (List.zipWith ruleOf (idSpan 0 2) decls),
               nestChainHtml ((idSpan 0 2).zip ([("outer", ([] : List (String × String))),
                 ("inner", [])].map Prod.fst))⟩, 0 + 2) ∧
      (([] : MatMap) = [] →
        compile (0 + (2 * 1 + 2)) 1
            [TopStmt.surf (LNode.surface "outer" [] (mkChainKids [("inner", [])]))] 0 =
          some ((jsJoin "\n" (List.zipWith ruleOf (idSpan 0 2) decls),
                 nestChainHtml ((idSpan 0 2).zip ([("outer", ([] : List (String × String))),
                   ("inner", [])].map Prod.fst))), 0 + 2)) :=
  c2_chain_rules_and_nesting [("inner", [])] "outer" [] 1 [] 0 0
    (by intro e he; fin_cases he <;> decide)

theorem resolveSurfaceProp_empty_value (rfuel : Nat) (key : String) (mm : MatMap)
    (hk1 : key ≠ "layout") (hk2 : key ≠ "wrap") (hk3 : key ≠ "use")
    (hmm : mm.lookup "" = none) :
    ∃ css, resolveSurfaceProp rfuel key "" mm = some css ∧ ∃ p ∈ css, p.2 = "" := by
  by_cases h1 : key = "width"
  · subst h1
    refine ⟨[("width", "")], ?_, ⟨("width", ""), by simp, rfl⟩⟩
    rw [resolveSurfaceProp]
    simp only [resolveSurfacePropCore, String.reduceEq, reduceIte]
  by_cases h2 : key = "height"
  · subst h2
    refine ⟨[("height", "")], ?_, ⟨("height", ""), by simp, rfl⟩⟩
    rw [resolveSurfaceProp]
    simp only [resolveSurfacePropCore, String.reduceEq, reduceIte]
  by_cases h3 : key = "min-width"
  · subst h3
    refine ⟨[("min-width", "")], ?_, ⟨("min-width", ""), by simp, rfl⟩⟩
    rw [resolveSurfaceProp]
    simp only [resolveSurfacePropCore, String.reduceEq, reduceIte]
  by_cases h4 : key = "max-width"
  · subst h4
    refine ⟨[("max-width", "")], ?_, ⟨("max-width", ""), by simp, rfl⟩⟩
    rw [resolveSurfaceProp]
    simp only [resolveSurfacePropCore, String.reduceEq, reduceIte]
  by_cases h5 : key = "min-height"
  · subst h5
    refine ⟨[("min-height", "")], ?_, ⟨("min-height", ""), by simp, rfl⟩⟩
    rw [resolveSurfaceProp]
    simp only [resolveSurfacePropCore, String.reduceEq, reduceIte]
  by_cases h6 : key = "max-height"
  · subst h6
    refine ⟨[("max-height", "")], ?_, ⟨("max-height", ""), by simp, rfl⟩⟩
    rw [resolveSurfaceProp]
    simp only [resolveSurfacePropCore, String.reduceEq, reduceIte]
  by_cases h7 : key = "material"
  · subst h7
    refine ⟨[("background", "")], ?_, ⟨("background", ""), by simp, rfl⟩⟩
    rw [resolveSurfaceProp]
    simp only [resolveSurfacePropCore, String.reduceEq, reduceIte, hmm,
      show resolveMaterialValue "" = [("background", "")] from rfl]
    rw [if_neg (show ¬ (("" : String) ∈ objectProtoKeys) from by decide)]
  by_cases h8 : key = "use"
  · exact absurd h8 hk3
  by_cases h9 : key = "layout"
  · exact absurd h9 hk1
  by_cases h10 : key = "gap"
  · subst h10
    refine ⟨[("gap", "")], ?_, ⟨("gap", ""), by simp, rfl⟩⟩
    rw [resolveSurfaceProp]
    simp only [resolveSurfacePropCore, String.reduceEq, reduceIte]
  by_cases h11 : key = "wrap"
  · exact absurd h11 hk2
  by_cases h12 : key = "align"
  · subst h12
    refine ⟨[("align-items", "")], ?_, ⟨("align-items", ""), by simp, rfl⟩⟩
    rw [resolveSurfaceProp]
    simp only [resolveSurfacePropCore, String.reduceEq, reduceIte]
  by_cases h13 : key = "justify"
  · subst h13
    refine ⟨[("justify-content", "")], ?_, ⟨("justify-content", ""), by simp, rfl⟩⟩
    rw [resolveSurfaceProp]
    simp only [resolveSurfacePropCore, String.reduceEq, reduceIte]
  by_cases h14 : key = "radius"
  · subst h14
    refine ⟨[("border-radius", "")], ?_, ⟨("border-radius", ""), by simp, rfl⟩⟩
    rw [resolveSurfaceProp]
    simp only [resolveSurfacePropCore, String.reduceEq, reduceIte]
  by_cases h15 : key = "opacity"
  · subst h15
    refine ⟨[("opacity", "")], ?_, ⟨("opacity", ""), by simp, rfl⟩⟩
    rw [resolveSurfaceProp]
    simp only [resolveSurfacePropCore, String.reduceEq, reduceIte]
  by_cases h16 : key = "border"
  · subst h16
    refine ⟨[("border", "")], ?_, ⟨("border", ""), by simp, rfl⟩⟩
    rw [resolveSurfaceProp]
    simp only [resolveSurfacePropCore, String.reduceEq, reduceIte]
  by_cases h17 : key = "shadow"
  · subst h17
    refine ⟨[("box-shadow", "")], ?_, ⟨("box-shadow", ""), by simp, rfl⟩⟩
    rw [resolveSurfaceProp]
    simp only [resolveSurfacePropCore, String.reduceEq, reduceIte]
  by_cases h18 : key = "layer"
  · subst h18
    refine ⟨[("z-index", "")], ?_, ⟨("z-index", ""), by simp, rfl⟩⟩
    rw [resolveSurfaceProp]
    simp only [resolveSurfacePropCore, String.reduceEq, reduceIte]
  by_cases h19 : key = "overflow"
  · subst h19
    refine ⟨[("overflow", "")], ?_, ⟨("overflow", ""), by simp, rfl⟩⟩
    rw [resolveSurfaceProp]
    simp only [resolveSurfacePropCore, String.reduceEq, reduceIte]
  by_cases h20 : key = "cursor"
  · subst h20
    refine ⟨[("cursor", "")], ?_, ⟨("cursor", ""), by simp, rfl⟩⟩
    rw [resolveSurfaceProp]
    simp only [resolveSurfacePropCore, String.reduceEq, reduceIte]
  by_cases h21 : key = "padding"
  · subst h21
    refine ⟨[("padding", "")], ?_, ⟨("padding", ""), by simp, rfl⟩⟩
    rw [resolveSurfaceProp]
    simp only [resolveSurfacePropCore, String.reduceEq, reduceIte]
  by_cases h22 : key = "margin"
  · subst h22
    refine ⟨[("margin", "")], ?_, ⟨("margin", ""), by simp, rfl⟩⟩
    rw [resolveSurfaceProp]
    simp only [resolveSurfacePropCore, String.reduceEq, reduceIte]
  by_cases h23 : key = "transition"
  · subst h23
    refine ⟨[("transition", "")], ?_, ⟨("transition", ""), by simp, rfl⟩⟩
    rw [resolveSurfaceProp]
    simp only [resolveSurfacePropCore, String.reduceEq, reduceIte]
  refine ⟨[(key, "")], ?_, ⟨(key, ""), by simp, rfl⟩⟩
  rw [resolveSurfaceProp]
  simp only [resolveSurfacePropCore, if_neg h1, if_neg h2, if_neg h3, if_neg h4, if_neg h5, if_neg h6, if_neg h7, if_neg h8, if_neg h9, if_neg h10, if_neg h11, if_neg h12, if_neg h13, if_neg h14, if_neg h15, if_neg h16, if_neg h17, if_neg h18, if_neg h19, if_neg h20, if_neg h21, if_neg h22, if_neg h23]

theorem dropWhile_spaces (rest : List Char) :
    ∀ k, (List.replicate k ' ' ++ '\n' :: rest).dropWhile jsSpaceTab = '\n' :: rest := by
  intro k
  induction k with
  | zero => simp [List.dropWhile, jsSpaceTab]
  | succ n ih => simpa [List.replicate_succ, List.dropWhile, jsSpaceTab] using ih

theorem tokenizeAux_colon_blank_line (f m : Nat) (rest : List Char) :
    tokenizeAux (f + 3) (':' :: (List.replicate (m + 1) ' ' ++ '\n' :: rest)) false =
      ⟨.COLON, ""⟩ :: ⟨.NEWLINE, ""⟩ :: tokenizeAux f rest false := by
  simp only [tokenizeAux]
  simp [jsSpaceTab, List.replicate_succ, List.dropWhile, dropWhile_spaces rest m,
    readVal, jsTrimRightChars]

theorem parseProperty_no_value (key : String) (toks : List Token) :
    parseProperty (⟨.IDENT, key⟩ :: ⟨.COLON, ""⟩ :: ⟨.NEWLINE, ""⟩ :: toks) =
      (some (key, ""), ⟨.NEWLINE, ""⟩ :: toks) := by
  simp [parseProperty, peekT, skipNewlines, List.dropWhile, jsTrim, jsTrimChars,
    show (TokType.COLON == TokType.NEWLINE) = false from by decide]

/-- C9 (amended): for a property line whose colon is followed by nothing but
horizontal whitespace before the line break, the lexer emits the colon and the
newline with no value token in between, and the parser still produces a
property whose value is the empty string; for every key other than `layout`,
`wrap` and `use` (whose resolutions substitute non-empty defaults or drop the
property entirely, see the counterexample) the resolved declarations for that
property then contain a declaration whose value text is empty. -/
theorem c9_empty_value_line (f m : Nat) (rest : List Char) (key : String)
    (toks : List Token) (rfuel : Nat) (mm : MatMap)
    (hk1 : key ≠ "layout") (hk2 : key ≠ "wrap") (hk3 : key ≠ "use")
    (hmm : mm.lookup "" = none) :
    tokenizeAux (f + 3) (':' :: (List.replicate (m + 1) ' ' ++ '\n' :: rest)) false =
      ⟨.COLON, ""⟩ :: ⟨.NEWLINE, ""⟩ :: tokenizeAux f rest false ∧
    parseProperty (⟨.IDENT, key⟩ :: ⟨.COLON, ""⟩ :: ⟨.NEWLINE, ""⟩ :: toks) =
      (some (key, ""), ⟨.NEWLINE, ""⟩ :: toks) ∧
    ∃ css, resolveSurfaceProp rfuel key "" mm = some css ∧ ∃ p ∈ css, p.2 = "" :=
  ⟨tokenizeAux_colon_blank_line f m rest, parseProperty_no_value key toks,
   resolveSurfaceProp_empty_value rfuel key mm hk1 hk2 hk3 hmm⟩

/-- Witness for C9 (amended): the key `radius` with one space after the colon. -/
theorem c9_empty_value_line_witness :
    tokenizeAux 3 (':' :: (List.replicate 1 ' ' ++ '\n' :: [])) false =
      ⟨.COLON, ""⟩ :: ⟨.NEWLINE, ""⟩ :: tokenizeAux 0 [] false ∧
    parseProperty (⟨.IDENT, "radius"⟩ :: ⟨.COLON, ""⟩ :: ⟨.NEWLINE, ""⟩ ::
        [⟨.RBRACE, ""⟩]) = (some ("radius", ""), ⟨.NEWLINE, ""⟩ :: [⟨.RBRACE, ""⟩]) ∧
    ∃ css, resolveSurfaceProp 0 "radius" "" [] = some css ∧ ∃ p ∈ css, p.2 = "" :=
  c9_empty_value_line 0 0 [] "radius" [⟨.RBRACE, ""⟩] 0 []
    (by decide) (by decide) (by decide) rfl

/-- Counterexample to C9 as stated: the empty-valued `layout` property parses
to value `""`, yet its resolution substitutes the defaults `display: flex` and
`flex-direction: column`, so the compiled rule contains no declaration with
empty value text. -/
theorem c9_counterexample :
    parse (tokenize "surface s \x7b\nlayout:\n\x7d") =
      .ok [.surf (.surface "s" [("layout", "")] [])] ∧
    compile 4 4 [.surf (.surface "s" [("layout", "")] [])] 0 =
      some (("#lm1 \x7b box-sizing: border-box; position: relative; display: flex; flex-direction: column \x7d",
             "<div id=\"lm1\" class=\"lumen-surface\" data-name=\"s\"></div>"), 1) ∧
    ∀ p ∈ ([("box-sizing", "border-box"), ("position", "relative"), ("display", "flex"),
            ("flex-direction", "column")] : CssObj), p.2 ≠ "" :=
  ⟨rfl, rfl, by decide⟩
